import Mathlib

/-!
# Earthquake-Visualizer: a shallow embedding of `src/App.jsx`

The file embeds the original logic of the single source file:

* the magnitude styling (`magnitudeColor`, `createMagnitudeIcon`),
* the click handler of `LocationMarker`,
* the fetch routine `fetchEarthquakes` of `EarthquakeVisualizer`, cut at its
  `await` points into the runs that execute without interruption,
* the conditional rendering of `EarthquakeVisualizer` (spinner or map, error
  banner, one marker per stored record),
* the mounted application: which events the rendered interface lets happen
  (the mount effect once, Refresh only while not loading, clicks only on a
  mounted map) and the life of the state of `LocationMarker`, which is
  discarded whenever the map branch is not rendered.

JavaScript values are embedded as follows.

* A number is a `JSNum`: `NaN`, the two infinities, or a finite value given by
  the rational it denotes.  Arithmetic rounds the exact result to the nearest
  IEEE-754 binary64 value, ties to even (`roundDouble`).  The sign of zero is
  not represented (`-0` and `+0` are both `fin 0`): the comparisons with 3
  and 5, `Math.max` against 8 and the division by 2 do not depend on it.
* A value is a `JSVal`: `undefined`, `null`, booleans, numbers, strings,
  arrays and plain objects (a table of own properties), which is what
  `JSON.parse` produces, plus `undefined` for a missing property.
-/

namespace EarthquakeVisualizer

/-! ## Numbers -/

/-- A JavaScript number: `NaN`, `-Infinity`, `+Infinity`, or a finite value. -/
inductive JSNum where
  | nan
  | ninf
  | pinf
  | fin (q : ℚ)
deriving DecidableEq

/-- Nearest integer to `x`, a tie going to the even neighbour. -/
def roundHalfEven (x : ℚ) : ℤ :=
  let f := ⌊x⌋
  let r := x - f
  if r < 1 / 2 then f else if 1 / 2 < r then f + 1 else if f % 2 = 0 then f else f + 1

/-- The exponent of the unit in the last place for a value of magnitude `a > 0`:
53 significant bits for a normal value, `2^(-1074)` in the subnormal range. -/
def ulpExp (a : ℚ) : ℤ := max (Int.log 2 a - 52) (-1074)

/-- Round an exact rational result to binary64, to nearest with ties to even;
a result of magnitude `2^1024` or more overflows to an infinity. -/
def roundDouble (q : ℚ) : JSNum :=
  if q = 0 then .fin 0
  else
    let a := |q|
    let e := ulpExp a
    let v : ℚ := (roundHalfEven (a / (2 : ℚ) ^ e) : ℚ) * (2 : ℚ) ^ e
    if (2 : ℚ) ^ (1024 : ℤ) ≤ v then (if q < 0 then .ninf else .pinf)
    else .fin (if q < 0 then -v else v)

/-- The finite binary64 values: an integer of at most 53 bits scaled by a power
of two no smaller than `2^(-1074)`, of magnitude below `2^1024`. -/
def IsDouble (r : ℚ) : Prop :=
  ∃ (n : ℤ) (e : ℤ), |n| ≤ 2 ^ 53 ∧ -1074 ≤ e ∧ r = n * (2 : ℚ) ^ e ∧ |r| < (2 : ℚ) ^ (1024 : ℤ)

/-- The `<` operator on two numbers: false as soon as one operand is `NaN`. -/
def jsLt : JSNum → JSNum → Bool
  | .nan, _ => false
  | _, .nan => false
  | .ninf, .ninf => false
  | .ninf, _ => true
  | _, .ninf => false
  | .pinf, _ => false
  | .fin _, .pinf => true
  | .fin a, .fin b => decide (a < b)

/-- The `<=` operator on two numbers: false as soon as one operand is `NaN`. -/
def jsLe : JSNum → JSNum → Bool
  | .nan, _ => false
  | _, .nan => false
  | .ninf, _ => true
  | _, .pinf => true
  | .pinf, _ => false
  | .fin _, .ninf => false
  | .fin a, .fin b => decide (a ≤ b)

/-- The `*` operator on two numbers. -/
def jsMul : JSNum → JSNum → JSNum
  | .nan, _ => .nan
  | _, .nan => .nan
  | .fin a, .fin b => roundDouble (a * b)
  | .fin a, .pinf => if a = 0 then .nan else if a < 0 then .ninf else .pinf
  | .fin a, .ninf => if a = 0 then .nan else if a < 0 then .pinf else .ninf
  | .pinf, .fin b => if b = 0 then .nan else if b < 0 then .ninf else .pinf
  | .ninf, .fin b => if b = 0 then .nan else if b < 0 then .pinf else .ninf
  | .pinf, .pinf => .pinf
  | .pinf, .ninf => .ninf
  | .ninf, .pinf => .ninf
  | .ninf, .ninf => .pinf

/-- The `/` operator on two numbers.  A zero divisor is read as `+0`. -/
def jsDiv : JSNum → JSNum → JSNum
  | .nan, _ => .nan
  | _, .nan => .nan
  | .fin a, .fin b =>
    if b = 0 then (if a = 0 then .nan else if a < 0 then .ninf else .pinf)
    else roundDouble (a / b)
  | .fin _, .pinf => .fin 0
  | .fin _, .ninf => .fin 0
  | .pinf, .fin b => if b < 0 then .ninf else .pinf
  | .ninf, .fin b => if b < 0 then .pinf else .ninf
  | .pinf, .pinf => .nan
  | .pinf, .ninf => .nan
  | .ninf, .pinf => .nan
  | .ninf, .ninf => .nan

/-- The function `Math.max` on two numbers: `NaN` if either is `NaN`, else the larger. -/
def mathMax : JSNum → JSNum → JSNum
  | .nan, _ => .nan
  | _, .nan => .nan
  | a, b => if jsLt a b then b else a

/-! ## Magnitude styling and the marker icon (`App.jsx`, lines 33-50) -/

/-- `magnitudeColor(mag)`, lines 33-37. -/
def magnitudeColor (mag : JSNum) : String :=
  if jsLt mag (.fin 3) then "#48BB78"
  else if jsLt mag (.fin 5) then "#ED8936"
  else "#E53E3E"

/-- One segment of a template literal: literal text, an interpolated string, or an
interpolated number (kept as the number; its decimal rendering is not modelled). -/
inductive TemplatePart where
  | text (s : String)
  | strVal (s : String)
  | numVal (n : JSNum)
deriving DecidableEq

/-- The options object handed to `L.divIcon`. -/
structure DivIcon where
  html : List TemplatePart
  className : String
  iconSize : JSNum × JSNum
  iconAnchor : JSNum × JSNum
deriving DecidableEq

/-- `createMagnitudeIcon(mag)`, lines 40-50. -/
def createMagnitudeIcon (mag : JSNum) : DivIcon :=
  let size := mathMax (jsMul mag (.fin 5)) (.fin 8)
  let color := magnitudeColor mag
  { html :=
      [ .text "<div style=\"background-color: ", .strVal color,
        .text "; width: ", .numVal size,
        .text "px; height: ", .numVal size,
        .text "px; border-radius: 50%; border: 1px solid white; opacity: 0.8;\"></div>" ]
    className := ""
    iconSize := (size, size)
    iconAnchor := (jsDiv size (.fin 2), jsDiv size (.fin 2)) }

/-! ## Values -/

/-- A JavaScript value as it occurs in the program: what `JSON.parse` returns,
and `undefined` for a property that is missing. -/
inductive JSVal where
  | undefined
  | null
  | bool (b : Bool)
  | num (n : JSNum)
  | str (s : String)
  | arr (xs : List JSVal)
  | obj (props : List (String × JSVal))

/-- The two ways an evaluation stops short of a value: the program throws
(a `TypeError`), or the conversion asked for is outside this model. -/
inductive JSError where
  | typeError
  | unmodelled
deriving DecidableEq

/-- The property names the program reads. -/
inductive Key where
  | features | length | geometry | coordinates | properties | mag | place | time | url | id
deriving DecidableEq

/-- The spelling of a property name. -/
def Key.name : Key → String
  | .features => "features"
  | .length => "length"
  | .geometry => "geometry"
  | .coordinates => "coordinates"
  | .properties => "properties"
  | .mag => "mag"
  | .place => "place"
  | .time => "time"
  | .url => "url"
  | .id => "id"

/-- Look a name up in a table of own properties; `undefined` when it is missing. -/
def lookup (k : String) : List (String × JSVal) → JSVal
  | [] => .undefined
  | (k', v) :: rest => if k' = k then v else lookup k rest

/-- The `length` of a string counts UTF-16 code units. -/
def utf16Length (s : String) : Nat :=
  (s.toList.map fun c => if c.toNat < 65536 then 1 else 2).sum

/-- Property access `v.k` for the names of `Key`: a `TypeError` on `undefined` and
`null`; an own property of an object; `length` of an array or a string; and
`undefined` otherwise (none of the names is inherited from a prototype). -/
def getProp (v : JSVal) (k : Key) : Except JSError JSVal :=
  match v with
  | .undefined => .error .typeError
  | .null => .error .typeError
  | .obj props => .ok (lookup k.name props)
  | .arr xs => if k = .length then .ok (.num (.fin xs.length)) else .ok .undefined
  | .str s => if k = .length then .ok (.num (.fin (utf16Length s))) else .ok .undefined
  | .bool _ => .ok .undefined
  | .num _ => .ok .undefined

/-- Truthiness (`ToBoolean`). -/
def truthy : JSVal → Bool
  | .undefined => false
  | .null => false
  | .bool b => b
  | .num .nan => false
  | .num (.fin q) => decide (q ≠ 0)
  | .num _ => true
  | .str s => decide (s ≠ "")
  | .arr _ => true
  | .obj _ => true

/-- The operator `a || b`. -/
def jsOr (a b : JSVal) : JSVal := if truthy a then a else b

/-- The test `v === 0`. -/
def strictEqZero : JSVal → Bool
  | .num (.fin q) => decide (q = 0)
  | _ => false

/-- The conversion `ToNumber` on `undefined`, `null`, booleans and numbers.  The
conversion of strings, arrays and objects (parsing a numeric string) is outside
this model. -/
def toNumber : JSVal → Except JSError JSNum
  | .undefined => .ok .nan
  | .null => .ok (.fin 0)
  | .bool b => .ok (.fin (if b then 1 else 0))
  | .num n => .ok n
  | .str _ => .error .unmodelled
  | .arr _ => .error .unmodelled
  | .obj _ => .error .unmodelled

/-- The array pattern `const [a, b] = v`: the first two items that iterating `v`
yields, `undefined` for a missing one; a `TypeError` when `v` is not iterable. -/
def destructure2 : JSVal → Except JSError (JSVal × JSVal)
  | .arr xs => .ok (xs.getD 0 .undefined, xs.getD 1 .undefined)
  | .str s =>
    let cs := s.toList.map fun c => JSVal.str (String.singleton c)
    .ok (cs.getD 0 .undefined, cs.getD 1 .undefined)
  | _ => .error .typeError

/-! ## The location picker (`LocationMarker`, lines 53-74) -/

/-- A Leaflet coordinate, the `e.latlng` of a click event. -/
structure LatLng where
  lat : JSNum
  lng : JSNum
deriving DecidableEq

/-- The call `map.flyTo(target, zoom)`. -/
structure FlyTo where
  target : LatLng
  zoom : JSNum
deriving DecidableEq

/-- A click on the map: the clicked coordinate, and what `map.getZoom()` returns
when the handler runs. -/
structure Click where
  latlng : LatLng
  mapZoom : JSNum
deriving DecidableEq

/-- The state `position` of `LocationMarker`, `null` at first (line 54). -/
def LocationMarker.initial : Option LatLng := none

/-- The `click(e)` handler, lines 57-60: the new `position` and the issued `flyTo`. -/
def LocationMarker.click (_position : Option LatLng) (e : Click) : Option LatLng × FlyTo :=
  (some e.latlng, { target := e.latlng, zoom := e.mapZoom })

/-- What `LocationMarker` returns, lines 63-73: no marker, or one marker at
`position` (its popup shows the two coordinates of `position`). -/
def LocationMarker.render (position : Option LatLng) : List LatLng :=
  match position with
  | none => []
  | some p => [p]

/-! ## The fetch routine (`EarthquakeVisualizer`, lines 77-103) -/

/-- The three state fields of `EarthquakeVisualizer`, lines 77-79. -/
structure AppState where
  earthquakes : JSVal
  loading : Bool
  error : Option String

/-- The state of the initial render. -/
def initialState : AppState :=
  { earthquakes := .arr [], loading := true, error := none }

/-- How the request of one call settles: `fetch` rejects (network failure), or it
resolves to a response with its `ok` flag, whose `res.json()` then resolves to
the parsed body or rejects (`none`, the body is not JSON). -/
inductive FetchResult where
  | rejected
  | response (ok : Bool) (json : Option JSVal)

/-- The text stored by the `catch` block, line 96. -/
def errorMessage : String := "Failed to fetch earthquake data. Please try again later."

/-- The run from the call to the first `await`, lines 83-86. -/
def fetchStart (s : AppState) : AppState :=
  { s with loading := true, error := none }

/-- The `catch` block followed by line 98. -/
def catchBlock (s : AppState) : AppState :=
  { s with error := some errorMessage, loading := false }

/-- The run once the request has settled, lines 89-98.  On an `ok` response the
routine suspends once more on `res.json()` without writing to the state, so the
two resumptions are one step here. -/
def fetchResume (s : AppState) : FetchResult → AppState
  | .rejected => catchBlock s
  | .response false _ => catchBlock s
  | .response true none => catchBlock s
  | .response true (some data) =>
    match getProp data .features with
    | .error _ => catchBlock s
    | .ok features => { s with earthquakes := jsOr features (.arr []), loading := false }

/-- One whole call of `fetchEarthquakes` with nothing else running in between. -/
def fetchEarthquakes (s : AppState) (r : FetchResult) : AppState :=
  fetchResume (fetchStart s) r

/-- The value a settled request makes the routine store with `setEarthquakes`;
`none` when the routine ends in the `catch` block instead. -/
def storedBy : FetchResult → Option JSVal
  | .response true (some data) =>
    match getProp data .features with
    | .error _ => none
    | .ok features => some (jsOr features (.arr []))
  | _ => none

/-- The two handler runs that touch the state: a call of `fetchEarthquakes` (by
the mount effect, line 102, or by the refresh button, line 122), and the
resumption of a call in flight when its request settles. -/
inductive Event where
  | start
  | settle (r : FetchResult)

/-- The component together with the bookkeeping of the calls: how many are in
flight, how many have ended with `setEarthquakes`, and the value the latest of
those stored. -/
structure Sys where
  ui : AppState
  inFlight : Nat
  succeeded : Nat
  lastStored : Option JSVal

/-- The initial render: nothing in flight yet (the mount effect runs after it). -/
def Sys.init : Sys :=
  { ui := initialState, inFlight := 0, succeeded := 0, lastStored := none }

/-- One handler run, at the level of the routine alone: a request can settle only
while a call is in flight, and a call can start at any time, also while
others are in flight.  Every run the interface allows (`stepUI` below) is a
run of this relation. -/
def step (x : Sys) : Event → Option Sys
  | .start => some { x with ui := fetchStart x.ui, inFlight := x.inFlight + 1 }
  | .settle r =>
    if x.inFlight = 0 then none
    else
      some
        { ui := fetchResume x.ui r
          inFlight := x.inFlight - 1
          succeeded := if (storedBy r).isSome then x.succeeded + 1 else x.succeeded
          lastStored := if (storedBy r).isSome then storedBy r else x.lastStored }

/-- A sequence of handler runs. -/
def run : Sys → List Event → Option Sys
  | x, [] => some x
  | x, e :: es => (step x e).bind fun y => run y es

/-! ## The view (`EarthquakeVisualizer`, lines 105-192) -/

/-- The condition of line 138, `loading && earthquakes.length === 0`. -/
def showsSpinner (s : AppState) : Except JSError Bool :=
  if s.loading then (getProp s.earthquakes .length).map strictEqZero
  else .ok false

/-- The banner of lines 131-136, `error && <Alert>...`: present for a truthy `error`. -/
def errorBanner (s : AppState) : Option String :=
  match s.error with
  | none => none
  | some msg => if msg ≠ "" then some msg else none

/-- What the popup of an earthquake marker interpolates, lines 163-181. -/
structure PopupData where
  mag : JSVal
  place : JSVal
  time : JSVal
  url : JSVal

/-- An earthquake `<Marker>`, lines 158-182. -/
structure QuakeMarker where
  key : JSVal
  position : JSVal × JSVal
  icon : DivIcon
  popup : PopupData

/-- The callback of `earthquakes.map`, lines 154-184. -/
def renderQuake (quake : JSVal) : Except JSError QuakeMarker := do
  let geometry ← getProp quake .geometry
  let coordinates ← getProp geometry .coordinates
  let (lng, lat) ← destructure2 coordinates
  let properties ← getProp quake .properties
  let mag ← getProp properties .mag
  let key ← getProp quake .id
  let magNum ← toNumber mag
  let place ← getProp properties .place
  let time ← getProp properties .time
  let url ← getProp properties .url
  pure
    { key := key
      position := (lat, lng)
      icon := createMagnitudeIcon magNum
      popup := { mag := mag, place := place, time := time, url := url } }

/-- The callback applied to the items of an array in order; the first item on
which it throws ends the evaluation. -/
def renderEach : List JSVal → Except JSError (List QuakeMarker)
  | [] => .ok []
  | quake :: rest => do
    let m ← renderQuake quake
    let ms ← renderEach rest
    pure (m :: ms)

/-- The expression `earthquakes.map(...)` of line 154: defined on an array only
(on any other value `map` is not a function). -/
def renderMarkers : JSVal → Except JSError (List QuakeMarker)
  | .arr xs => renderEach xs
  | _ => .error .typeError

/-- What the marker code reads from an event record: its identifier, the first
two entries of its coordinate array, and its magnitude as a number. -/
structure Reading where
  id : String
  lng : JSVal
  lat : JSVal
  mag : JSNum

/-- A well-formed event record, in any layout: `quake.id` is the string `r.id`,
`quake.geometry.coordinates` is an array starting with `r.lng` and `r.lat`
(a pair, or more entries such as a depth), and `quake.properties.mag` is a
value that converts to the number `r.mag`.  Further properties are free. -/
def WellFormed (quake : JSVal) (r : Reading) : Prop :=
  getProp quake .id = .ok (.str r.id) ∧
  (∃ geometry rest, getProp quake .geometry = .ok geometry ∧
    getProp geometry .coordinates = .ok (.arr (r.lng :: r.lat :: rest))) ∧
  (∃ properties mag, getProp quake .properties = .ok properties ∧
    getProp properties .mag = .ok mag ∧ toNumber mag = .ok r.mag)

/-- The conditional of lines 138-190: the spinner (`none`), or the map with its
earthquake markers (and `LocationMarker` inside it, line 187).  Rendering
throws when the condition or the callback of `earthquakes.map` does. -/
def renderBody (s : AppState) : Except JSError (Option (List QuakeMarker)) :=
  match showsSpinner s with
  | .error e => .error e
  | .ok true => .ok none
  | .ok false => (renderMarkers s.earthquakes).map some

/-! ## The component on screen -/

/-- The mounted application: the state of `EarthquakeVisualizer` with the
bookkeeping of its calls, whether the mount effect of lines 101-103 has run,
whether a render has thrown (the tree is then gone), and the state of
`LocationMarker`, which exists only while the map branch is rendered
(`none` when it is not mounted, `some position` when it is). -/
structure UI where
  sys : Sys
  effectRan : Bool
  crashed : Bool
  position : Option (Option LatLng)

/-- What can happen to the mounted application: the mount effect runs, the
Refresh button is pressed, the request of a call in flight settles, the map is
clicked. -/
inductive UIEvent where
  | mountEffect
  | refresh
  | settle (r : FetchResult)
  | click (c : Click)

/-- The first render: the loading indicator, so no `LocationMarker` yet. -/
def UI.init : UI :=
  { sys := Sys.init, effectRan := false, crashed := false, position := none }

/-- The render that follows a write to the state of `EarthquakeVisualizer`.  The
map branch keeps a mounted `LocationMarker` with its state and mounts a new
one with `position = null`; the spinner branch unmounts it and discards its
state; a render that throws takes the whole tree down. -/
def commit (x : UI) (sys : Sys) : UI :=
  match renderBody sys.ui with
  | .error _ => { x with sys := sys, crashed := true, position := none }
  | .ok none => { x with sys := sys, position := none }
  | .ok (some _) =>
    { x with sys := sys, position := some (x.position.getD LocationMarker.initial) }

/-- One event of the mounted application.  The mount effect runs once (empty
dependency list, line 103).  The Refresh button calls `fetchEarthquakes` only
while `loading` is false (`isLoading={loading}`, line 125, makes it inert).  A
click reaches the handler of `LocationMarker` only while that is mounted, and
writes its `position`.  After a render has thrown nothing is left to happen. -/
def stepUI (x : UI) (e : UIEvent) : Option UI :=
  if x.crashed then none
  else
    match e with
    | .mountEffect =>
      if x.effectRan then none
      else (step x.sys .start).map fun sys => commit { x with effectRan := true } sys
    | .refresh =>
      if x.sys.ui.loading then none
      else (step x.sys .start).map fun sys => commit x sys
    | .settle r => (step x.sys (.settle r)).map fun sys => commit x sys
    | .click c =>
      match x.position with
      | none => none
      | some position => some { x with position := some (LocationMarker.click position c).1 }

/-- A sequence of events of the mounted application. -/
def runUI : UI → List UIEvent → Option UI
  | x, [] => some x
  | x, e :: es => (stepUI x e).bind fun y => runUI y es

/-- The location markers on screen: those of the mounted `LocationMarker`. -/
def UI.locationMarkers (x : UI) : List LatLng :=
  match x.position with
  | none => []
  | some position => LocationMarker.render position

/-- What holds of every state the mounted application reaches: at most one call
is in flight; before the mount effect the state is the initial one; after it
`loading` is set exactly while a call is in flight; an error message is
never stored while loading; `LocationMarker` is mounted exactly when the map
branch is rendered; and the tree is gone exactly when rendering throws, which
happens only with no call in flight. -/
structure UI.Inv (x : UI) : Prop where
  atMostOne : x.sys.inFlight ≤ 1
  beforeEffect : x.effectRan = false → x.sys.inFlight = 0 ∧ x.sys.ui = initialState
  loadingIff : x.effectRan = true → (x.sys.ui.loading = true ↔ x.sys.inFlight = 1)
  noError : x.sys.ui.loading = true → x.sys.ui.error = none
  mounted : x.position ≠ none ↔ ∃ ms, renderBody x.sys.ui = .ok (some ms)
  crashedIff : x.crashed = true ↔ ∃ e, renderBody x.sys.ui = .error e
  crashedIdle : x.crashed = true → x.sys.inFlight = 0

/-- The bookkeeping of `Sys` agrees with the stored list: it is the value stored
by the latest call that succeeded, the initial empty list when none has. -/
def Sys.Consistent (x : Sys) : Prop :=
  x.ui.earthquakes = x.lastStored.getD (.arr []) ∧ (x.succeeded = 0 ↔ x.lastStored = none)

/-! ## Facts about numbers -/

theorem roundHalfEven_intCast (k : ℤ) : roundHalfEven (k : ℚ) = k := by
  simp [roundHalfEven]

theorem roundHalfEven_nonneg {x : ℚ} (hx : 0 ≤ x) : 0 ≤ roundHalfEven x := by
  have hf : 0 ≤ ⌊x⌋ := Int.floor_nonneg.mpr hx
  unfold roundHalfEven
  dsimp only
  split_ifs <;> omega

theorem roundHalfEven_le {x : ℚ} {M : ℤ} (hx : x ≤ M) : roundHalfEven x ≤ M := by
  have hf : ⌊x⌋ ≤ M := by
    have h1 : (⌊x⌋ : ℚ) ≤ M := (Int.floor_le x).trans hx
    exact_mod_cast h1
  by_cases hlt : x - ⌊x⌋ < 1 / 2
  · unfold roundHalfEven
    dsimp only
    rw [if_pos hlt]
    exact hf
  · have hne : (⌊x⌋ : ℚ) < x := by
      have : (1:ℚ) / 2 ≤ x - ⌊x⌋ := not_lt.mp hlt
      linarith
    have hlt' : (⌊x⌋ : ℚ) < M := lt_of_lt_of_le hne hx
    have : ⌊x⌋ < M := by exact_mod_cast hlt'
    unfold roundHalfEven
    dsimp only
    split_ifs <;> omega

/-- The integer chosen by `roundHalfEven` is within one half of its argument. -/
theorem roundHalfEven_dist (x : ℚ) : |(roundHalfEven x : ℚ) - x| ≤ 1 / 2 := by
  have h1 : (⌊x⌋ : ℚ) ≤ x := Int.floor_le x
  have h2 : x < ⌊x⌋ + 1 := Int.lt_floor_add_one x
  rw [abs_le]
  unfold roundHalfEven
  dsimp only
  split_ifs with ha hb hc
  · constructor <;> linarith
  · constructor <;> push_cast <;> linarith
  · have : x - ⌊x⌋ = 1 / 2 := le_antisymm (not_lt.mp hb) (not_lt.mp ha)
    constructor <;> linarith
  · have : x - ⌊x⌋ = 1 / 2 := le_antisymm (not_lt.mp hb) (not_lt.mp ha)
    constructor <;> push_cast <;> linarith

/-- On a tie `roundHalfEven` picks the even neighbour. -/
theorem roundHalfEven_tie (x : ℚ) (h : x - ⌊x⌋ = 1 / 2) : roundHalfEven x % 2 = 0 := by
  unfold roundHalfEven
  dsimp only
  rw [if_neg (by rw [h]; exact lt_irrefl _), if_neg (by rw [h]; exact lt_irrefl _)]
  split_ifs with hc
  · exact hc
  · omega

theorem two_zpow_pos (e : ℤ) : (0 : ℚ) < (2 : ℚ) ^ e := zpow_pos (by norm_num) e

theorem log_two_spec {a : ℚ} (ha : 0 < a) :
    (2 : ℚ) ^ Int.log 2 a ≤ a ∧ a < (2 : ℚ) ^ (Int.log 2 a + 1) := by
  have h1 := Int.zpow_log_le_self (b := 2) (r := a) (by norm_num) ha
  have h2 := Int.lt_zpow_succ_log_self (b := 2) (by norm_num) a
  simp only [Nat.cast_ofNat] at h1 h2
  exact ⟨h1, h2⟩

theorem ulpExp_ge (a : ℚ) : -1074 ≤ ulpExp a := le_max_right _ _

theorem ulpExp_ge_log (a : ℚ) : Int.log 2 a - 52 ≤ ulpExp a := le_max_left _ _

/-- The scaled magnitude that `roundDouble` rounds to an integer is below `2^53`. -/
theorem scaled_lt {a : ℚ} (ha : 0 < a) : a / (2 : ℚ) ^ ulpExp a < 2 ^ (53 : ℕ) := by
  rw [div_lt_iff₀ (two_zpow_pos _)]
  have h2 := (log_two_spec ha).2
  have hle : Int.log 2 a + 1 ≤ 53 + ulpExp a := by
    have := ulpExp_ge_log a
    omega
  calc a < (2 : ℚ) ^ (Int.log 2 a + 1) := h2
    _ ≤ (2 : ℚ) ^ (53 + ulpExp a) := zpow_le_zpow_right₀ (by norm_num) hle
    _ = 2 ^ (53 : ℕ) * (2 : ℚ) ^ ulpExp a := by
      rw [zpow_add₀ (by norm_num)]
      norm_cast

theorem isDouble_zero : IsDouble 0 :=
  ⟨0, 0, by norm_num, by norm_num, by simp, by simp [two_zpow_pos]⟩

theorem IsDouble.neg {r : ℚ} (h : IsDouble r) : IsDouble (-r) := by
  obtain ⟨n, e, hn, he, hr, hlt⟩ := h
  exact ⟨-n, e, by simpa using hn, he, by simp [hr], by simpa using hlt⟩

/-- What `roundDouble` returns, when finite, is a binary64 value. -/
theorem isDouble_of_roundDouble {q r : ℚ} (h : roundDouble q = .fin r) : IsDouble r := by
  unfold roundDouble at h
  by_cases hq : q = 0
  · rw [if_pos hq] at h
    injection h with h
    exact h ▸ isDouble_zero
  · rw [if_neg hq] at h
    dsimp only at h
    have ha : 0 < |q| := abs_pos.mpr hq
    set k := roundHalfEven (|q| / (2 : ℚ) ^ ulpExp |q|) with hk
    have hk0 : 0 ≤ k := roundHalfEven_nonneg (div_nonneg ha.le (two_zpow_pos _).le)
    have hk53 : k ≤ 2 ^ 53 := by
      apply roundHalfEven_le
      have := (scaled_lt ha).le
      exact_mod_cast this
    by_cases hov : (2 : ℚ) ^ (1024 : ℤ) ≤ (k : ℚ) * (2 : ℚ) ^ ulpExp |q|
    · rw [if_pos hov] at h
      split_ifs at h
    · rw [if_neg hov] at h
      have hv : IsDouble ((k : ℚ) * (2 : ℚ) ^ ulpExp |q|) := by
        refine ⟨k, ulpExp |q|, by rw [abs_of_nonneg hk0]; exact hk53, ulpExp_ge _, rfl, ?_⟩
        rw [abs_of_nonneg (mul_nonneg (by exact_mod_cast hk0) (two_zpow_pos _).le)]
        exact not_le.mp hov
      injection h with h
      by_cases hneg : q < 0
      · rw [if_pos hneg] at h
        exact h ▸ hv.neg
      · rw [if_neg hneg] at h
        exact h ▸ hv

/-- A positive binary64 magnitude is a whole number of units in its last place. -/
theorem scaled_isInt {N e : ℤ} {a : ℚ} (hadef : a = (N : ℚ) * (2 : ℚ) ^ e)
    (hN0 : 0 < N) (hN : N ≤ 2 ^ 53) (he : -1074 ≤ e) :
    ∃ k : ℤ, a / (2 : ℚ) ^ ulpExp a = k := by
  have hNq : (0 : ℚ) < N := by exact_mod_cast hN0
  have ha : (0 : ℚ) < a := hadef ▸ mul_pos hNq (two_zpow_pos e)
  have hmax : ulpExp a = max (Int.log 2 a - 52) (-1074) := rfl
  obtain ⟨u, hu⟩ : ∃ u, u = ulpExp a := ⟨_, rfl⟩
  rw [← hu] at hmax ⊢
  by_cases hle : u ≤ e
  · refine ⟨N * 2 ^ (e - u).toNat, ?_⟩
    have hsplit : (2 : ℚ) ^ e = (2 : ℚ) ^ (e - u).toNat * (2 : ℚ) ^ u := by
      rw [← zpow_natCast, ← zpow_add₀ (by norm_num)]
      congr 1
      rw [Int.toNat_of_nonneg (by omega)]
      ring
    rw [div_eq_iff (two_zpow_pos _).ne', hadef, hsplit]
    push_cast
    ring
  · have hlt : e < u := not_le.mp hle
    have hlog : e + 53 ≤ Int.log 2 a := by
      rcases max_cases (Int.log 2 a - 52) (-1074 : ℤ) with ⟨h1, _⟩ | ⟨h1, _⟩
      · rw [hmax, h1] at hlt
        omega
      · rw [hmax, h1] at hlt
        omega
    have hpow : (2 : ℚ) ^ (e + 53) ≤ a :=
      (zpow_le_zpow_right₀ (by norm_num) hlog).trans (log_two_spec ha).1
    have hN' : (2 : ℚ) ^ (53 : ℕ) ≤ N := by
      rw [zpow_add₀ (by norm_num), hadef, mul_comm] at hpow
      have := le_of_mul_le_mul_right hpow (two_zpow_pos e)
      exact_mod_cast this
    have hNeq : N = 2 ^ 53 := by
      have : (2 : ℤ) ^ 53 ≤ N := by exact_mod_cast hN'
      omega
    have haeq : a = (2 : ℚ) ^ (e + 53) := by
      rw [hadef, hNeq, zpow_add₀ (by norm_num), mul_comm]
      norm_cast
    have hlog' : Int.log 2 a = e + 53 := by
      rw [haeq]
      have := Int.log_zpow (R := ℚ) (b := 2) (by norm_num) (e + 53)
      simpa using this
    have hulp : u = e + 1 := by
      rw [hmax, hlog', max_eq_left (by omega)]
      ring
    refine ⟨2 ^ 52, ?_⟩
    rw [hulp, haeq, div_eq_iff (two_zpow_pos _).ne',
      show e + 53 = (52 : ℤ) + (e + 1) by ring, zpow_add₀ (by norm_num)]
    norm_num

/-- On a binary64 value `roundDouble` is the identity. -/
theorem roundDouble_of_isDouble {r : ℚ} (h : IsDouble r) : roundDouble r = .fin r := by
  obtain ⟨n, e, hn, he, hr, hlt⟩ := h
  by_cases hr0 : r = 0
  · simp [roundDouble, hr0]
  · have hn0 : n ≠ 0 := by
      rintro rfl
      exact hr0 (by simp [hr])
    have habs : |r| = ((|n| : ℤ) : ℚ) * (2 : ℚ) ^ e := by
      rw [hr, abs_mul, abs_of_pos (two_zpow_pos e)]
      push_cast
      rfl
    obtain ⟨k, hk⟩ := scaled_isInt habs (abs_pos.mpr hn0) hn he
    unfold roundDouble
    rw [if_neg hr0]
    dsimp only
    rw [hk, roundHalfEven_intCast, ← hk, div_mul_cancel₀ _ (two_zpow_pos _).ne',
      if_neg (not_le.mpr hlt)]
    by_cases hneg : r < 0
    · rw [if_pos hneg, abs_of_neg hneg, neg_neg]
    · rw [if_neg hneg, abs_of_nonneg (not_lt.mp hneg)]

/-- A finite result of `roundDouble` lies within half a unit in the last place of
the exact value. -/
theorem roundDouble_dist {q r : ℚ} (h : roundDouble q = .fin r) :
    |r - q| ≤ (2 : ℚ) ^ ulpExp |q| / 2 := by
  unfold roundDouble at h
  by_cases hq : q = 0
  · rw [if_pos hq] at h
    injection h with h
    rw [← h, hq]
    simpa using (div_pos (two_zpow_pos (ulpExp 0)) (by norm_num : (0 : ℚ) < 2)).le
  · rw [if_neg hq] at h
    dsimp only at h
    have hu := two_zpow_pos (ulpExp |q|)
    have hd := roundHalfEven_dist (|q| / (2 : ℚ) ^ ulpExp |q|)
    obtain ⟨u, hudef⟩ : ∃ u, u = (2 : ℚ) ^ ulpExp |q| := ⟨_, rfl⟩
    rw [← hudef] at hu h hd ⊢
    obtain ⟨a, ha⟩ : ∃ a, a = |q| := ⟨_, rfl⟩
    rw [← ha] at h hd
    obtain ⟨k, hk⟩ : ∃ k : ℤ, k = roundHalfEven (a / u) := ⟨_, rfl⟩
    rw [← hk] at hd h
    have hv : |(k : ℚ) * u - a| ≤ u / 2 := by
      have : (k : ℚ) * u - a = ((k : ℚ) - a / u) * u := by
        field_simp
      rw [this, abs_mul, abs_of_pos hu]
      calc _ ≤ 1 / 2 * u := mul_le_mul_of_nonneg_right hd hu.le
        _ = u / 2 := by ring
    split_ifs at h with hov hneg hneg
    · injection h with h
      rw [← h]
      have : -((k : ℚ) * u) - q = -((k : ℚ) * u - a) := by
        rw [ha, abs_of_neg hneg]
        ring
      rw [this, abs_neg]
      exact hv
    · injection h with h
      rw [← h]
      rw [ha, abs_of_nonneg (not_lt.mp hneg)] at hv
      exact hv

theorem isDouble_eight : IsDouble 8 := by
  refine ⟨8, 0, by norm_num, by norm_num, by norm_num, ?_⟩
  rw [abs_of_nonneg (by norm_num)]
  calc (8 : ℚ) = (2 : ℚ) ^ (3 : ℤ) := by norm_num
    _ < (2 : ℚ) ^ (1024 : ℤ) := zpow_lt_zpow_right₀ (by norm_num) (by norm_num)

/-- Halving a binary64 value of at least 8 is exact. -/
theorem IsDouble.half {r : ℚ} (h : IsDouble r) (h8 : 8 ≤ r) : IsDouble (r / 2) := by
  obtain ⟨n, e, hn, he, hr, hlt⟩ := h
  have he' : -1073 ≤ e := by
    by_contra hcon
    have hle : e ≤ -1074 := by omega
    have hnq : (n : ℚ) ≤ 2 ^ (53 : ℕ) := by
      have := (le_abs_self n).trans hn
      exact_mod_cast this
    have h1 : r ≤ 2 ^ (53 : ℕ) * (2 : ℚ) ^ e := by
      rw [hr]
      exact mul_le_mul_of_nonneg_right hnq (two_zpow_pos e).le
    have h2 : (2 : ℚ) ^ (53 : ℕ) * (2 : ℚ) ^ e ≤ 1 := by
      rw [← zpow_natCast, ← zpow_add₀ (by norm_num)]
      exact zpow_le_one_of_nonpos₀ (by norm_num) (by push_cast; omega)
    linarith
  refine ⟨n, e - 1, hn, by omega, ?_, ?_⟩
  · rw [hr, zpow_sub₀ (by norm_num)]
    field_simp
  · rw [abs_div]
    have : |r| / |(2 : ℚ)| ≤ |r| := by
      rw [abs_of_pos (by norm_num : (0 : ℚ) < 2)]
      linarith [abs_nonneg r]
    exact lt_of_le_of_lt this hlt

theorem roundDouble_ne_nan (q : ℚ) : roundDouble q ≠ .nan := by
  unfold roundDouble
  dsimp only
  split_ifs <;> simp

theorem jsMul_ne_nan_of_fin (q r : ℚ) : jsMul (.fin q) (.fin r) ≠ .nan := by
  simp [jsMul, roundDouble_ne_nan]

theorem jsMul_five_ne_nan (m : JSNum) (h : m ≠ .nan) : jsMul m (.fin 5) ≠ .nan := by
  cases m with
  | nan => exact absurd rfl h
  | ninf =>
    have h5 : ¬ ((5 : ℚ) < 0) := by norm_num
    simp [jsMul, h5]
  | pinf =>
    have h5 : ¬ ((5 : ℚ) < 0) := by norm_num
    simp [jsMul, h5]
  | fin q => exact jsMul_ne_nan_of_fin q 5

theorem mathMax_not_lt (x : JSNum) : jsLt (mathMax x (.fin 8)) (.fin 8) = false := by
  cases x with
  | nan => rfl
  | ninf => simp [mathMax, jsLt]
  | pinf => simp [mathMax, jsLt]
  | fin q =>
    by_cases h : q < 8
    · simp [mathMax, jsLt, h]
    · simp [mathMax, jsLt, h]

theorem mathMax_ge (x : JSNum) (h : x ≠ .nan) : jsLe (.fin 8) (mathMax x (.fin 8)) = true := by
  cases x with
  | nan => exact absurd rfl h
  | ninf => simp [mathMax, jsLt, jsLe]
  | pinf => simp [mathMax, jsLt, jsLe]
  | fin q =>
    by_cases h : q < 8
    · simp [mathMax, jsLt, jsLe, h]
    · simp [mathMax, jsLt, jsLe, h]
      exact not_lt.mp h

theorem mathMax_fin (r : ℚ) : mathMax (.fin r) (.fin 8) = .fin (max r 8) := by
  by_cases h : r < 8
  · simp [mathMax, jsLt, h, max_eq_right (le_of_lt h)]
  · simp [mathMax, jsLt, h, max_eq_left (not_lt.mp h)]

theorem isDouble_of_jsMul_five {m : JSNum} {t : ℚ} (h : jsMul m (.fin 5) = .fin t) :
    IsDouble t := by
  have h5 : ¬ ((5 : ℚ) < 0) := by norm_num
  cases m with
  | nan => simp [jsMul] at h
  | ninf => simp [jsMul, h5] at h
  | pinf => simp [jsMul, h5] at h
  | fin q => exact isDouble_of_roundDouble (q := q * 5) h

/-- A finite marker size is a binary64 value of at least 8. -/
theorem size_isDouble {m : JSNum} {r : ℚ}
    (h : mathMax (jsMul m (.fin 5)) (.fin 8) = .fin r) : IsDouble r ∧ 8 ≤ r := by
  cases hy : jsMul m (.fin 5) with
  | nan => simp [hy, mathMax] at h
  | ninf =>
    simp [hy, mathMax, jsLt] at h
    exact h ▸ ⟨isDouble_eight, le_refl _⟩
  | pinf => simp [hy, mathMax, jsLt] at h
  | fin t =>
    rw [hy, mathMax_fin] at h
    injection h with h
    subst h
    rcases max_cases t 8 with ⟨h1, _⟩ | ⟨h1, _⟩
    · rw [h1]
      exact ⟨isDouble_of_jsMul_five hy, by rw [← h1]; exact le_max_right _ _⟩
    · rw [h1]
      exact ⟨isDouble_eight, le_refl _⟩

theorem jsDiv_two_exact {r : ℚ} (h : IsDouble r) (h8 : 8 ≤ r) :
    jsDiv (.fin r) (.fin 2) = .fin (r / 2) := by
  have h2 : ¬ ((2 : ℚ) = 0) := by norm_num
  simp only [jsDiv, if_neg h2]
  exact roundDouble_of_isDouble (h.half h8)

theorem isDouble_intCast (n : ℤ) (h : |n| ≤ 2 ^ 53) : IsDouble (n : ℚ) := by
  refine ⟨n, 0, h, by norm_num, by simp, ?_⟩
  have h1 : |(n : ℚ)| ≤ (2 : ℚ) ^ (53 : ℤ) := by
    have h0 : ((|n| : ℤ) : ℚ) ≤ ((2 ^ 53 : ℤ) : ℚ) := by exact_mod_cast h
    rw [Int.cast_abs] at h0
    calc |(n : ℚ)| ≤ ((2 ^ 53 : ℤ) : ℚ) := h0
      _ = (2 : ℚ) ^ (53 : ℤ) := by norm_num
  exact lt_of_le_of_lt h1 (zpow_lt_zpow_right₀ (by norm_num) (by norm_num))

/-! ## The magnitude styling -/

/-- C1: for every number `m`, `magnitudeColor(m)` is green `#48BB78` when `m < 3`,
orange `#ED8936` when `3 <= m` and `m < 5`, and red `#E53E3E` when `5 <= m`,
the comparisons being those of JavaScript (so the infinities are covered). -/
theorem magnitudeColor_thresholds (m : JSNum) :
    (jsLt m (.fin 3) = true → magnitudeColor m = "#48BB78") ∧
    (jsLe (.fin 3) m = true ∧ jsLt m (.fin 5) = true → magnitudeColor m = "#ED8936") ∧
    (jsLe (.fin 5) m = true → magnitudeColor m = "#E53E3E") := by
  cases m with
  | nan => simp [magnitudeColor, jsLt, jsLe]
  | ninf => simp [magnitudeColor, jsLt, jsLe]
  | pinf => simp [magnitudeColor, jsLt, jsLe]
  | fin q =>
    refine ⟨?_, ?_, ?_⟩
    · intro h
      simp [magnitudeColor, h]
    · rintro ⟨h3, h5⟩
      have h3' : ¬ q < 3 := by
        simp [jsLe] at h3
        exact not_lt.mpr h3
      simp [magnitudeColor, jsLt, h3']
      simpa [jsLt] using h5
    · intro h5
      have h5' : (5 : ℚ) ≤ q := by simpa [jsLe] using h5
      have h3' : ¬ q < 3 := by linarith
      have h5'' : ¬ q < 5 := by linarith
      simp [magnitudeColor, jsLt, h3', h5'']

/-- The three cases of C1 at the magnitudes 2, 4 and 6. -/
theorem magnitudeColor_thresholds_witness :
    (jsLt (.fin 2) (.fin 3) = true ∧ magnitudeColor (.fin 2) = "#48BB78") ∧
    ((jsLe (.fin 3) (.fin 4) = true ∧ jsLt (.fin 4) (.fin 5) = true) ∧
      magnitudeColor (.fin 4) = "#ED8936") ∧
    (jsLe (.fin 5) (.fin 6) = true ∧ magnitudeColor (.fin 6) = "#E53E3E") :=
  ⟨⟨by decide, (magnitudeColor_thresholds (.fin 2)).1 (by decide)⟩,
   ⟨by decide, (magnitudeColor_thresholds (.fin 4)).2.1 (by decide)⟩,
   ⟨by decide, (magnitudeColor_thresholds (.fin 6)).2.2 (by decide)⟩⟩

/-- C2: for every number `m` (zero, negative values, the infinities and `NaN`
included) the size computed by `createMagnitudeIcon` is
`Math.max(m * 5, 8)`; it is never below 8, it is at least 8 whenever `m` is
not `NaN`, for a finite `m` whose product `m * 5` rounds to the finite
value `r` it is the larger of `r` and 8, and when the product is itself a
binary64 value it is the larger of the exact product and 8. -/
theorem markerSize_eq_max (m : JSNum) :
    (createMagnitudeIcon m).iconSize.1 = mathMax (jsMul m (.fin 5)) (.fin 8) ∧
    jsLt (createMagnitudeIcon m).iconSize.1 (.fin 8) = false ∧
    (m ≠ .nan → jsLe (.fin 8) (createMagnitudeIcon m).iconSize.1 = true) ∧
    (∀ q r : ℚ, m = .fin q → roundDouble (q * 5) = .fin r →
      (createMagnitudeIcon m).iconSize.1 = .fin (max r 8)) ∧
    (∀ q : ℚ, m = .fin q → IsDouble (q * 5) →
      (createMagnitudeIcon m).iconSize.1 = .fin (max (q * 5) 8)) := by
  have key : ∀ q r : ℚ, m = .fin q → roundDouble (q * 5) = .fin r →
      (createMagnitudeIcon m).iconSize.1 = .fin (max r 8) := by
    intro q r hm hr
    subst hm
    show mathMax (jsMul (.fin q) (.fin 5)) (.fin 8) = .fin (max r 8)
    rw [show jsMul (.fin q) (.fin 5) = roundDouble (q * 5) from rfl, hr]
    exact mathMax_fin r
  exact ⟨rfl, mathMax_not_lt _, fun h => mathMax_ge _ (jsMul_five_ne_nan m h), key,
    fun q hm hd => key q (q * 5) hm (roundDouble_of_isDouble hd)⟩

/-- C2 at the magnitude `-1`: the size is at least 8. -/
theorem markerSize_eq_max_witness :
    JSNum.fin (-1) ≠ .nan ∧ jsLe (.fin 8) (createMagnitudeIcon (.fin (-1))).iconSize.1 = true :=
  ⟨by decide, (markerSize_eq_max (.fin (-1))).2.2.1 (by decide)⟩

/-- C8: for every number `m`, the icon of `createMagnitudeIcon(m)` is a
`border-radius: 50%` box whose `width`, `height` and the two components of
`iconSize` are the one computed size `Math.max(m * 5, 8)`, whose
`background-color` is `magnitudeColor(m)`, whose `opacity` is `0.8`, and whose
`iconAnchor` is `(size / 2, size / 2)`; the division is exact, so that for a
finite size `r` the anchor is the centre `(r / 2, r / 2)` of the box. -/
theorem createMagnitudeIcon_shape (m : JSNum) :
    (createMagnitudeIcon m).html =
      [ .text "<div style=\"background-color: ", .strVal (magnitudeColor m),
        .text "; width: ", .numVal (createMagnitudeIcon m).iconSize.1,
        .text "px; height: ", .numVal (createMagnitudeIcon m).iconSize.1,
        .text "px; border-radius: 50%; border: 1px solid white; opacity: 0.8;\"></div>" ] ∧
    (createMagnitudeIcon m).iconSize.2 = (createMagnitudeIcon m).iconSize.1 ∧
    (createMagnitudeIcon m).iconSize.1 = mathMax (jsMul m (.fin 5)) (.fin 8) ∧
    (createMagnitudeIcon m).iconAnchor =
      (jsDiv (createMagnitudeIcon m).iconSize.1 (.fin 2),
       jsDiv (createMagnitudeIcon m).iconSize.1 (.fin 2)) ∧
    (∀ r : ℚ, (createMagnitudeIcon m).iconSize.1 = .fin r →
      (createMagnitudeIcon m).iconAnchor = (.fin (r / 2), .fin (r / 2))) := by
  refine ⟨rfl, rfl, rfl, rfl, ?_⟩
  intro r hr
  have hr' : mathMax (jsMul m (.fin 5)) (.fin 8) = .fin r := hr
  obtain ⟨hd, h8⟩ := size_isDouble hr'
  show (jsDiv (mathMax (jsMul m (.fin 5)) (.fin 8)) (.fin 2),
      jsDiv (mathMax (jsMul m (.fin 5)) (.fin 8)) (.fin 2)) = _
  rw [hr', jsDiv_two_exact hd h8]

/-- C8 at the magnitude 4: the size is 20 and the anchor is `(10, 10)`. -/
theorem createMagnitudeIcon_shape_witness :
    (createMagnitudeIcon (.fin 4)).iconSize.1 = .fin 20 ∧
    (createMagnitudeIcon (.fin 4)).iconAnchor = (.fin (20 / 2), .fin (20 / 2)) := by
  have h20 : (createMagnitudeIcon (.fin 4)).iconSize.1 = .fin 20 := by
    have hr : roundDouble (4 * 5) = .fin 20 := by
      have := roundDouble_of_isDouble (isDouble_intCast 20 (by norm_num))
      norm_num at this ⊢
      exact this
    show mathMax (jsMul (.fin 4) (.fin 5)) (.fin 8) = .fin 20
    rw [show jsMul (.fin 4) (.fin 5) = roundDouble (4 * 5) from rfl, hr, mathMax_fin]
    norm_num
  exact ⟨h20, (createMagnitudeIcon_shape (.fin 4)).2.2.2.2 20 h20⟩

/-! ## The fetch routine, one call at a time -/

/-- C3: one call of `fetchEarthquakes` whose request fails (the network fails,
the response has a non-success status, or the body does not parse) ends with
the error set to the fixed text, loading cleared and the stored list as it was
before the call; the banner shows that text; and on the first fetch the list
is still empty. -/
theorem fetchEarthquakes_failure (s : AppState) :
    fetchEarthquakes s .rejected =
      { earthquakes := s.earthquakes, loading := false,
        error := some "Failed to fetch earthquake data. Please try again later." } ∧
    (∀ json, fetchEarthquakes s (.response false json) =
      { earthquakes := s.earthquakes, loading := false,
        error := some "Failed to fetch earthquake data. Please try again later." }) ∧
    fetchEarthquakes s (.response true none) =
      { earthquakes := s.earthquakes, loading := false,
        error := some "Failed to fetch earthquake data. Please try again later." } ∧
    errorBanner (fetchEarthquakes s .rejected) =
      some "Failed to fetch earthquake data. Please try again later." ∧
    (fetchEarthquakes initialState .rejected).earthquakes = .arr [] ∧
    (∀ json, (fetchEarthquakes initialState (.response false json)).earthquakes = .arr []) ∧
    (fetchEarthquakes initialState (.response true none)).earthquakes = .arr [] := by
  refine ⟨rfl, fun json => ?_, rfl, ?_, rfl, fun json => ?_, rfl⟩
  · cases json <;> rfl
  · simp [errorBanner, fetchEarthquakes, fetchResume, catchBlock, errorMessage]
  · cases json <;> rfl

/-- C4, as stated, fails: a response with a success status whose body is the
JSON text `null` parses, has no `features` field, and yet the call ends with the
error message set and the previous list kept, not with an empty list and no error. -/
theorem fetchEarthquakes_null_body :
    (fetchEarthquakes
        { earthquakes := .arr [.obj [("id", .str "a")]], loading := false, error := none }
        (.response true (some .null))).error =
      some "Failed to fetch earthquake data. Please try again later." ∧
    (fetchEarthquakes
        { earthquakes := .arr [.obj [("id", .str "a")]], loading := false, error := none }
        (.response true (some .null))).earthquakes = .arr [.obj [("id", .str "a")]] ∧
    ¬ ((fetchEarthquakes
        { earthquakes := .arr [.obj [("id", .str "a")]], loading := false, error := none }
        (.response true (some .null))).error = none ∧
      (fetchEarthquakes
        { earthquakes := .arr [.obj [("id", .str "a")]], loading := false, error := none }
        (.response true (some .null))).earthquakes = .arr []) := by
  refine ⟨rfl, rfl, ?_⟩
  rintro ⟨h, -⟩
  exact absurd h (by simp [fetchEarthquakes, fetchResume, getProp, catchBlock])

/-- C4, amended: one call of `fetchEarthquakes` whose response has a success
status and whose body parses to a value other than `null` ends with loading
cleared, no error message, and the stored list replaced by `data.features || []`
whatever it held before: by the `features` list when there is one, by the empty
list when the field is absent. -/
theorem fetchEarthquakes_success (s : AppState) (data : JSVal)
    (hnull : data ≠ .null) (hundef : data ≠ .undefined) :
    ∃ features, getProp data .features = .ok features ∧
      fetchEarthquakes s (.response true (some data)) =
        { earthquakes := jsOr features (.arr []), loading := false, error := none } ∧
      (∀ xs, features = .arr xs →
        fetchEarthquakes s (.response true (some data)) =
          { earthquakes := .arr xs, loading := false, error := none }) ∧
      (features = .undefined →
        fetchEarthquakes s (.response true (some data)) =
          { earthquakes := .arr [], loading := false, error := none }) := by
  have key : ∀ features, getProp data .features = .ok features →
      fetchEarthquakes s (.response true (some data)) =
        { earthquakes := jsOr features (.arr []), loading := false, error := none } := by
    intro features h
    simp [fetchEarthquakes, fetchResume, h, fetchStart]
  have hex : ∃ features, getProp data .features = .ok features := by
    cases data with
    | undefined => exact absurd rfl hundef
    | null => exact absurd rfl hnull
    | bool b => exact ⟨_, rfl⟩
    | num n => exact ⟨_, rfl⟩
    | str t => exact ⟨_, rfl⟩
    | arr xs => exact ⟨_, rfl⟩
    | obj props => exact ⟨_, rfl⟩
  obtain ⟨features, hf⟩ := hex
  refine ⟨features, hf, key features hf, ?_, ?_⟩
  · intro xs hxs
    rw [key features hf, hxs]
    rfl
  · intro hu
    rw [key features hf, hu]
    rfl

/-- C4 amended, at a body with one record and at a body without the field. -/
theorem fetchEarthquakes_success_witness :
    (JSVal.obj [("features", .arr [.obj [("id", .str "a")]])] ≠ .null ∧
      JSVal.obj [("features", .arr [.obj [("id", .str "a")]])] ≠ .undefined) ∧
    ∃ features,
      getProp (.obj [("features", .arr [.obj [("id", .str "a")]])]) .features = .ok features ∧
      fetchEarthquakes initialState
          (.response true (some (.obj [("features", .arr [.obj [("id", .str "a")]])]))) =
        { earthquakes := jsOr features (.arr []), loading := false, error := none } ∧
      (∀ xs, features = .arr xs →
        fetchEarthquakes initialState
            (.response true (some (.obj [("features", .arr [.obj [("id", .str "a")]])]))) =
          { earthquakes := .arr xs, loading := false, error := none }) ∧
      (features = .undefined →
        fetchEarthquakes initialState
            (.response true (some (.obj [("features", .arr [.obj [("id", .str "a")]])]))) =
          { earthquakes := .arr [], loading := false, error := none }) :=
  ⟨⟨by simp, by simp⟩,
   fetchEarthquakes_success initialState
    (.obj [("features", .arr [.obj [("id", .str "a")]])]) (by simp) (by simp)⟩

/-! ## Overlapping calls -/

theorem run_invariant (P : Sys → Prop)
    (hstep : ∀ x e y, P x → step x e = some y → P y) :
    ∀ (evs : List Event) (x y : Sys), P x → run x evs = some y → P y := by
  intro evs
  induction evs with
  | nil =>
    intro x y hx h
    simp only [run, Option.some.injEq] at h
    exact h ▸ hx
  | cons e es ih =>
    intro x y hx h
    simp only [run] at h
    cases hs : step x e with
    | none => simp [hs] at h
    | some z =>
      rw [hs] at h
      exact ih z y (hstep x e z hx hs) h

theorem fetchResume_loading (s : AppState) (r : FetchResult) :
    (fetchResume s r).loading = false := by
  unfold fetchResume
  split <;> try rfl
  split <;> rfl

theorem fetchResume_of_stored (s : AppState) (r : FetchResult) (v : JSVal)
    (h : storedBy r = some v) :
    fetchResume s r = { s with earthquakes := v, loading := false } := by
  unfold storedBy at h
  split at h
  · rename_i data
    unfold fetchResume
    dsimp only
    split at h
    · exact absurd h (by simp)
    · rename_i features hf
      simp only [Option.some.injEq] at h
      rw [← h]
  · exact absurd h (by simp)

theorem fetchResume_of_not_stored (s : AppState) (r : FetchResult)
    (h : storedBy r = none) : fetchResume s r = catchBlock s := by
  unfold storedBy at h
  split at h
  · rename_i data
    unfold fetchResume
    dsimp only
    split at h
    · rfl
    · exact absurd h (by simp)
  · rename_i hne
    unfold fetchResume
    split <;> try rfl
    rename_i data
    exact absurd rfl (hne data)

/-- C10: with each handler run (the start of a call, a resumption on the success
path, a resumption on the failure path) taken as one step and the calls
interleaved in any way, no reachable state has loading set together with an
error message, although the three fields can represent such a state. -/
theorem loading_excludes_error :
    (∀ (evs : List Event) (x : Sys), run Sys.init evs = some x →
      x.ui.loading = true → x.ui.error = none) ∧
    (∃ s : AppState, s.loading = true ∧ s.error ≠ none) := by
  refine ⟨fun evs x h => ?_, ⟨⟨.arr [], true, some errorMessage⟩, rfl, by simp⟩⟩
  refine run_invariant (fun x => x.ui.loading = true → x.ui.error = none) ?_ evs Sys.init x
    (fun _ => rfl) h
  intro x e y _ hs
  cases e with
  | start =>
    simp only [step, Option.some.injEq] at hs
    subst hs
    intro _
    rfl
  | settle r =>
    by_cases h0 : x.inFlight = 0
    · simp [step, h0] at hs
    · simp only [step, if_neg h0, Option.some.injEq] at hs
      subst hs
      intro hl
      rw [fetchResume_loading] at hl
      exact absurd hl (by simp)

/-- C10 on a run with two overlapping calls, one of which has failed, followed
by a third call: loading is set and the error is cleared. -/
theorem loading_excludes_error_witness :
    run Sys.init [.start, .start, .settle .rejected, .start] =
      some { ui := { earthquakes := .arr [], loading := true, error := none },
             inFlight := 2, succeeded := 0, lastStored := none } ∧
    ({ ui := { earthquakes := .arr [], loading := true, error := none },
       inFlight := 2, succeeded := 0, lastStored := none } : Sys).ui.loading = true ∧
    ({ ui := { earthquakes := .arr [], loading := true, error := none },
       inFlight := 2, succeeded := 0, lastStored := none } : Sys).ui.error = none :=
  ⟨rfl, rfl, loading_excludes_error.1 [.start, .start, .settle .rejected, .start] _ rfl rfl⟩

/-! ## Spinner or map -/

theorem consistent_init : Sys.init.Consistent := ⟨rfl, by simp [Sys.init]⟩

theorem consistent_step (x : Sys) (e : Event) (y : Sys) (hx : x.Consistent)
    (hs : step x e = some y) : y.Consistent := by
  obtain ⟨hq, hn⟩ := hx
  cases e with
  | start =>
    simp only [step, Option.some.injEq] at hs
    subst hs
    exact ⟨hq, hn⟩
  | settle r =>
    by_cases h0 : x.inFlight = 0
    · simp [step, h0] at hs
    · simp only [step, if_neg h0, Option.some.injEq] at hs
      subst hs
      cases hr : storedBy r with
      | none =>
        simp only [Sys.Consistent, fetchResume_of_not_stored _ _ hr, catchBlock]
        simpa using ⟨hq, hn⟩
      | some v =>
        simp [Sys.Consistent, fetchResume_of_stored _ _ v hr]

theorem consistent_of_run (evs : List Event) (x : Sys) (h : run Sys.init evs = some x) :
    x.Consistent :=
  run_invariant Sys.Consistent consistent_step evs Sys.init x consistent_init h

theorem run_starts (n : Nat) (x : Sys) :
    ∃ y, run x (List.replicate n .start) = some y ∧ y.ui = (if n = 0 then x.ui else fetchStart x.ui)
      ∧ y.succeeded = x.succeeded := by
  induction n generalizing x with
  | zero => exact ⟨x, rfl, rfl, rfl⟩
  | succ n ih =>
    obtain ⟨y, hy, hui, hsu⟩ :=
      ih { x with ui := fetchStart x.ui, inFlight := x.inFlight + 1 }
    refine ⟨y, ?_, ?_, hsu⟩
    · simpa [List.replicate_succ, run, step] using hy
    · rw [hui]
      by_cases hn : n = 0 <;> simp [hn, fetchStart]

/-- C7, as stated, fails: after a fetch has completed successfully with an empty
`features` list, a refresh shows the loading indicator again; and the same
happens after data has loaded and a later fetch has delivered an empty list. -/
theorem spinner_after_success :
    run Sys.init
        [.start, .settle (.response true (some (.obj [("features", .arr [])]))), .start] =
      some
        { ui := { earthquakes := .arr [], loading := true, error := none }
          inFlight := 1, succeeded := 1, lastStored := some (.arr []) } ∧
    run Sys.init
        [.start,
         .settle (.response true (some (.obj [("features", .arr [.obj [("id", .str "a")]])]))),
         .start, .settle (.response true (some (.obj [("features", .arr [])]))), .start] =
      some
        { ui := { earthquakes := .arr [], loading := true, error := none }
          inFlight := 1, succeeded := 2, lastStored := some (.arr []) } ∧
    showsSpinner { earthquakes := .arr [], loading := true, error := none } = .ok true ∧
    ¬ (showsSpinner
          ({ ui := { earthquakes := .arr [], loading := true, error := none },
             inFlight := 1, succeeded := 1, lastStored := some (.arr []) } : Sys).ui = .ok true →
        ({ ui := { earthquakes := .arr [], loading := true, error := none },
             inFlight := 1, succeeded := 1, lastStored := some (.arr []) } : Sys).succeeded = 0) := by
  have hs : showsSpinner { earthquakes := .arr [], loading := true, error := none } = .ok true := by
    simp [showsSpinner, getProp, strictEqZero, Except.map]
  refine ⟨rfl, rfl, hs, ?_⟩
  intro h
  exact absurd (h hs) (by decide)

/-- C7, amended: in every state reachable by mount, refresh clicks and response
resolutions, the loading indicator is shown in place of the map exactly when
loading is set and the stored list has length zero; so it is shown only when no
fetch has yet completed successfully or the latest fetch that completed
successfully stored a value of length zero; as long as no fetch has completed
successfully it is shown exactly while loading; and the initial render, and
every state in which calls have been started and no response has arrived,
shows the loading indicator. -/
theorem spinner_iff_loading_and_empty (evs : List Event) (x : Sys)
    (h : run Sys.init evs = some x) :
    (showsSpinner x.ui = .ok true ↔
      x.ui.loading = true ∧ (getProp x.ui.earthquakes .length).map strictEqZero = .ok true) ∧
    (showsSpinner x.ui = .ok true →
      x.succeeded = 0 ∨
      ∃ v, x.lastStored = some v ∧ x.ui.earthquakes = v ∧
        (getProp v .length).map strictEqZero = .ok true) ∧
    (x.succeeded = 0 → x.ui.earthquakes = .arr [] ∧ showsSpinner x.ui = .ok x.ui.loading) ∧
    showsSpinner Sys.init.ui = .ok true ∧
    (∀ n, ∃ y, run Sys.init (List.replicate n .start) = some y ∧ y.succeeded = 0 ∧
      showsSpinner y.ui = .ok true) := by
  obtain ⟨hq, hn⟩ := consistent_of_run evs x h
  have hiff : showsSpinner x.ui = .ok true ↔
      x.ui.loading = true ∧ (getProp x.ui.earthquakes .length).map strictEqZero = .ok true := by
    unfold showsSpinner
    by_cases hl : x.ui.loading = true
    · simp [hl]
    · simp [hl]
  have hempty : showsSpinner { earthquakes := .arr [], loading := true, error := none } =
      .ok true := by
    simp [showsSpinner, getProp, strictEqZero, Except.map]
  refine ⟨hiff, ?_, ?_, hempty, ?_⟩
  · intro hsp
    cases hls : x.lastStored with
    | none => exact Or.inl (hn.mpr hls)
    | some v =>
      have hv : x.ui.earthquakes = v := by rw [hq, hls]; rfl
      exact Or.inr ⟨v, rfl, hv, hv ▸ (hiff.mp hsp).2⟩
  · intro h0
    have hq' : x.ui.earthquakes = .arr [] := by rw [hq, hn.mp h0]; rfl
    refine ⟨hq', ?_⟩
    unfold showsSpinner
    by_cases hl : x.ui.loading = true
    · simp [hl, hq', getProp, strictEqZero, Except.map]
    · simp [hl]
  · intro n
    obtain ⟨y, hy, hui, hsu⟩ := run_starts n Sys.init
    refine ⟨y, hy, hsu, ?_⟩
    rw [hui]
    by_cases hn0 : n = 0
    · simpa [hn0] using hempty
    · simpa [hn0] using hempty

/-- C7 amended, on the run where a fetch has stored an empty list and a refresh
has been pressed: the loading indicator is shown, and the latest successful
fetch stored a list of length zero. -/
theorem spinner_iff_loading_and_empty_witness :
    run Sys.init
        [.start, .settle (.response true (some (.obj [("features", .arr [])]))), .start] =
      some { ui := { earthquakes := .arr [], loading := true, error := none },
             inFlight := 1, succeeded := 1, lastStored := some (.arr []) } ∧
    showsSpinner { earthquakes := .arr [], loading := true, error := none } = .ok true ∧
    (({ ui := { earthquakes := .arr [], loading := true, error := none },
             inFlight := 1, succeeded := 1, lastStored := some (.arr []) } : Sys).succeeded = 0 ∨
      ∃ v, some (JSVal.arr []) = some v ∧ JSVal.arr [] = v ∧
        (getProp v .length).map strictEqZero = .ok true) := by
  have hs : showsSpinner { earthquakes := .arr [], loading := true, error := none } = .ok true := by
    simp [showsSpinner, getProp, strictEqZero, Except.map]
  exact ⟨rfl, hs,
    (spinner_iff_loading_and_empty
      [.start, .settle (.response true (some (.obj [("features", .arr [])]))), .start]
      { ui := { earthquakes := .arr [], loading := true, error := none },
        inFlight := 1, succeeded := 1, lastStored := some (.arr []) } rfl).2.1 hs⟩

/-! ## One marker per record -/

theorem getProp_ok_any {v a : JSVal} {k : Key} (h : getProp v k = .ok a) (k' : Key) :
    ∃ b, getProp v k' = .ok b := by
  cases v with
  | undefined => simp [getProp] at h
  | null => simp [getProp] at h
  | bool b => exact ⟨_, rfl⟩
  | num n => exact ⟨_, rfl⟩
  | str t =>
    by_cases hk : k' = .length
    · exact ⟨.num (.fin (utf16Length t)), by simp [getProp, hk]⟩
    · exact ⟨.undefined, by simp [getProp, hk]⟩
  | arr xs =>
    by_cases hk : k' = .length
    · exact ⟨.num (.fin xs.length), by simp [getProp, hk]⟩
    · exact ⟨.undefined, by simp [getProp, hk]⟩
  | obj props => exact ⟨_, rfl⟩

theorem renderQuake_wellFormed {quake : JSVal} {r : Reading} (h : WellFormed quake r) :
    ∃ m, renderQuake quake = .ok m ∧ m.key = .str r.id ∧ m.position = (r.lat, r.lng) ∧
      m.icon = createMagnitudeIcon r.mag := by
  obtain ⟨hid, ⟨geometry, rest, hg, hc⟩, ⟨properties, mag, hp, hm, hn⟩⟩ := h
  obtain ⟨place, hplace⟩ := getProp_ok_any hm .place
  obtain ⟨time, htime⟩ := getProp_ok_any hm .time
  obtain ⟨url, hurl⟩ := getProp_ok_any hm .url
  refine ⟨{ key := .str r.id, position := (r.lat, r.lng), icon := createMagnitudeIcon r.mag,
            popup := { mag := mag, place := place, time := time, url := url } }, ?_, rfl, rfl, rfl⟩
  simp only [renderQuake, hg, hc, hp, hm, hid, hn, hplace, htime, hurl, destructure2,
    List.getD_cons_zero, List.getD_cons_succ, bind, Except.bind, pure, Except.pure]

theorem renderEach_wellFormed (qs : List (JSVal × Reading))
    (h : ∀ p ∈ qs, WellFormed p.1 p.2) :
    ∃ ms, renderEach (qs.map Prod.fst) = .ok ms ∧
      ms.map (fun m => m.key) = qs.map (fun p => JSVal.str p.2.id) ∧
      ms.map (fun m => m.position) = qs.map (fun p => (p.2.lat, p.2.lng)) ∧
      ms.map (fun m => m.icon) = qs.map (fun p => createMagnitudeIcon p.2.mag) := by
  induction qs with
  | nil => exact ⟨[], rfl, rfl, rfl, rfl⟩
  | cons q qs ih =>
    obtain ⟨ms, hms, hk, hp, hi⟩ := ih fun p hp => h p (List.mem_cons_of_mem _ hp)
    obtain ⟨m, hm, hmk, hmp, hmi⟩ := renderQuake_wellFormed (h q (List.mem_cons_self _ _))
    refine ⟨m :: ms, ?_, ?_, ?_, ?_⟩
    · simp only [List.map_cons, renderEach, hm, hms, bind, Except.bind, pure, Except.pure]
    · simp [hmk, hk]
    · simp [hmp, hp]
    · simp [hmi, hi]

/-- C5: for every list of `N` well-formed records held in `earthquakes`, whatever
their layout (a `[lng, lat]` pair or more coordinates, any further properties),
the expression `earthquakes.map(...)` renders `N` markers; the `i`-th marker has
the identifier of the `i`-th record as its key, so the keys are pairwise
distinct whenever the identifiers are; it stands at `[lat, lng]`, the record's
`[lng, lat]` pair swapped; its icon is that of the record's magnitude; and
with at least one record the map with these markers, not the loading
indicator, is what is rendered. -/
theorem markers_of_records (qs : List (JSVal × Reading))
    (h : ∀ p ∈ qs, WellFormed p.1 p.2) :
    ∃ ms, renderMarkers (.arr (qs.map Prod.fst)) = .ok ms ∧
      ms.length = qs.length ∧
      ms.map (fun m => m.key) = qs.map (fun p => JSVal.str p.2.id) ∧
      ((qs.map fun p => p.2.id).Nodup → (ms.map fun m => m.key).Nodup) ∧
      ms.map (fun m => m.position) = qs.map (fun p => (p.2.lat, p.2.lng)) ∧
      ms.map (fun m => m.icon) = qs.map (fun p => createMagnitudeIcon p.2.mag) ∧
      (qs ≠ [] → ∀ loading error,
        renderBody
          { earthquakes := .arr (qs.map Prod.fst), loading := loading, error := error } =
          .ok (some ms)) := by
  obtain ⟨ms, hms, hk, hp, hi⟩ := renderEach_wellFormed qs h
  have hlen : ms.length = qs.length := by
    have := congrArg List.length hk
    simpa using this
  refine ⟨ms, hms, hlen, hk, ?_, hp, hi, ?_⟩
  · intro hnd
    rw [hk]
    have hinj : Function.Injective JSVal.str := fun a b hab => by
      injection hab
    have hmap : (qs.map fun p => JSVal.str p.2.id) = (qs.map fun p => p.2.id).map JSVal.str := by
      simp
    rw [hmap]
    exact hnd.map hinj
  · intro hne loading error
    have hsp : showsSpinner
        { earthquakes := .arr (qs.map Prod.fst), loading := loading, error := error } =
        .ok false := by
      cases loading with
      | false => rfl
      | true =>
        have hq : ¬ ((qs.length : ℚ) = 0) := by
          have : qs.length ≠ 0 := fun h0 => hne (List.length_eq_zero.mp h0)
          exact_mod_cast this
        simp [showsSpinner, getProp, strictEqZero, Except.map, hq]
    have hrm : renderMarkers (.arr (qs.map Prod.fst)) = .ok ms := hms
    simp only [renderBody, hsp, hrm]
    rfl

/-- C5 on a feed of two records in different layouts: the shape the
specification gives, with a `[lng, lat]` pair, and a feed record with three
coordinates, a `null` magnitude and further properties. -/
theorem markers_of_records_witness :
    (∀ p ∈
        [ (JSVal.obj
            [ ("id", .str "us1"),
              ("geometry", .obj [("coordinates", .arr [.num (.fin 78), .num (.fin 20)])]),
              ("properties",
                .obj [("mag", .num (.fin 4)), ("place", .str "p"), ("time", .num (.fin 1000)),
                      ("url", .str "u")]) ],
           ({ id := "us1", lng := .num (.fin 78), lat := .num (.fin 20), mag := .fin 4 } :
              Reading)),
          (JSVal.obj
            [ ("type", .str "Feature"),
              ("properties",
                .obj [("mag", .null), ("place", .str "q"), ("time", .num (.fin 2000)),
                      ("updated", .num (.fin 2001)), ("url", .str "w"), ("tsunami", .num (.fin 0)),
                      ("title", .str "t")]),
              ("geometry",
                .obj [("type", .str "Point"),
                      ("coordinates", .arr [.num (.fin (-120)), .num (.fin 35), .num (.fin 5)])]),
              ("id", .str "us2") ],
           { id := "us2", lng := .num (.fin (-120)), lat := .num (.fin 35), mag := .fin 0 }) ],
      WellFormed p.1 p.2) ∧
    ∃ ms,
      renderMarkers
        (.arr
          [ .obj
              [ ("id", .str "us1"),
                ("geometry", .obj [("coordinates", .arr [.num (.fin 78), .num (.fin 20)])]),
                ("properties",
                  .obj [("mag", .num (.fin 4)), ("place", .str "p"), ("time", .num (.fin 1000)),
                        ("url", .str "u")]) ],
            .obj
              [ ("type", .str "Feature"),
                ("properties",
                  .obj [("mag", .null), ("place", .str "q"), ("time", .num (.fin 2000)),
                        ("updated", .num (.fin 2001)), ("url", .str "w"),
                        ("tsunami", .num (.fin 0)), ("title", .str "t")]),
                ("geometry",
                  .obj [("type", .str "Point"),
                        ("coordinates",
                          .arr [.num (.fin (-120)), .num (.fin 35), .num (.fin 5)])]),
                ("id", .str "us2") ] ]) = .ok ms ∧
      ms.length = 2 ∧
      ms.map (fun m => m.key) = [.str "us1", .str "us2"] ∧
      ms.map (fun m => m.position) =
        [(.num (.fin 20), .num (.fin 78)), (.num (.fin 35), .num (.fin (-120)))] := by
  have hwf : ∀ p ∈
      [ (JSVal.obj
          [ ("id", .str "us1"),
            ("geometry", .obj [("coordinates", .arr [.num (.fin 78), .num (.fin 20)])]),
            ("properties",
              .obj [("mag", .num (.fin 4)), ("place", .str "p"), ("time", .num (.fin 1000)),
                    ("url", .str "u")]) ],
         ({ id := "us1", lng := .num (.fin 78), lat := .num (.fin 20), mag := .fin 4 } :
            Reading)),
        (JSVal.obj
          [ ("type", .str "Feature"),
            ("properties",
              .obj [("mag", .null), ("place", .str "q"), ("time", .num (.fin 2000)),
                    ("updated", .num (.fin 2001)), ("url", .str "w"), ("tsunami", .num (.fin 0)),
                    ("title", .str "t")]),
            ("geometry",
              .obj [("type", .str "Point"),
                    ("coordinates", .arr [.num (.fin (-120)), .num (.fin 35), .num (.fin 5)])]),
            ("id", .str "us2") ],
         { id := "us2", lng := .num (.fin (-120)), lat := .num (.fin 35), mag := .fin 0 }) ],
      WellFormed p.1 p.2 := by
    intro p hp
    simp only [List.mem_cons, List.mem_singleton, List.not_mem_nil, or_false] at hp
    rcases hp with rfl | rfl
    · exact ⟨rfl, ⟨_, _, rfl, rfl⟩, ⟨_, _, rfl, rfl, rfl⟩⟩
    · exact ⟨rfl, ⟨_, _, rfl, rfl⟩, ⟨_, _, rfl, rfl, rfl⟩⟩
  refine ⟨hwf, ?_⟩
  obtain ⟨ms, hms, hlen, hk, -, hp, -⟩ := markers_of_records _ hwf
  exact ⟨ms, hms, hlen, hk, hp⟩

/-! ## The component on screen: one call at a time, and the life of the picker -/

theorem commit_cases (x : UI) (sys : Sys) :
    (∃ e, renderBody sys.ui = .error e ∧
      commit x sys = { x with sys := sys, crashed := true, position := none }) ∨
    (renderBody sys.ui = .ok none ∧ commit x sys = { x with sys := sys, position := none }) ∨
    (∃ ms, renderBody sys.ui = .ok (some ms) ∧
      commit x sys =
        { x with sys := sys, position := some (x.position.getD LocationMarker.initial) }) := by
  unfold commit
  cases h : renderBody sys.ui with
  | error e => exact Or.inl ⟨e, rfl, rfl⟩
  | ok b =>
    cases b with
    | none => exact Or.inr (Or.inl ⟨rfl, rfl⟩)
    | some ms => exact Or.inr (Or.inr ⟨ms, rfl, rfl⟩)

theorem stepUI_mountEffect {x y : UI} (h : stepUI x .mountEffect = some y) :
    x.crashed = false ∧ x.effectRan = false ∧
    y = commit { x with effectRan := true }
      { x.sys with ui := fetchStart x.sys.ui, inFlight := x.sys.inFlight + 1 } := by
  cases hc : x.crashed with
  | true => simp [stepUI, hc] at h
  | false =>
    cases he : x.effectRan with
    | true => simp [stepUI, hc, he] at h
    | false =>
      simp only [stepUI, hc, he, step, Option.map_some', Option.some.injEq, Bool.false_eq_true,
        if_false] at h
      exact ⟨rfl, rfl, h.symm⟩

theorem stepUI_refresh {x y : UI} (h : stepUI x .refresh = some y) :
    x.crashed = false ∧ x.sys.ui.loading = false ∧
    y = commit x { x.sys with ui := fetchStart x.sys.ui, inFlight := x.sys.inFlight + 1 } := by
  cases hc : x.crashed with
  | true => simp [stepUI, hc] at h
  | false =>
    cases hl : x.sys.ui.loading with
    | true => simp [stepUI, hc, hl] at h
    | false =>
      simp only [stepUI, hc, hl, step, Option.map_some', Option.some.injEq, Bool.false_eq_true,
        if_false] at h
      exact ⟨rfl, rfl, h.symm⟩

theorem stepUI_settle {x y : UI} {r : FetchResult} (h : stepUI x (.settle r) = some y) :
    x.crashed = false ∧ x.sys.inFlight ≠ 0 ∧
    y = commit x
      { ui := fetchResume x.sys.ui r
        inFlight := x.sys.inFlight - 1
        succeeded := if (storedBy r).isSome then x.sys.succeeded + 1 else x.sys.succeeded
        lastStored := if (storedBy r).isSome then storedBy r else x.sys.lastStored } := by
  cases hc : x.crashed with
  | true => simp [stepUI, hc] at h
  | false =>
    by_cases h0 : x.sys.inFlight = 0
    · simp [stepUI, hc, step, h0] at h
    · simp only [stepUI, hc, step, if_neg h0, Option.map_some', Option.some.injEq,
        Bool.false_eq_true, if_false] at h
      exact ⟨rfl, h0, h.symm⟩

theorem stepUI_click {x y : UI} {c : Click} (h : stepUI x (.click c) = some y) :
    x.crashed = false ∧ ∃ p, x.position = some p ∧
      y = { x with position := some (some c.latlng) } := by
  cases hc : x.crashed with
  | true => simp [stepUI, hc] at h
  | false =>
    cases hp : x.position with
    | none => simp [stepUI, hc, hp] at h
    | some p =>
      simp only [stepUI, hc, hp, LocationMarker.click, Option.some.injEq, Bool.false_eq_true,
        if_false] at h
      refine ⟨rfl, p, rfl, ?_⟩
      rw [← h]

theorem renderBody_fetchStart_initial : renderBody (fetchStart initialState) = .ok none := by
  simp [renderBody, showsSpinner, fetchStart, initialState, getProp, strictEqZero, Except.map]

theorem renderBody_fetchStart {s : AppState} {b : Option (List QuakeMarker)}
    (hl : s.loading = false) (hb : renderBody s = .ok b) :
    ∃ b', renderBody (fetchStart s) = .ok b' := by
  have hsp : showsSpinner s = .ok false := by simp [showsSpinner, hl]
  simp only [renderBody, hsp] at hb
  cases hq : s.earthquakes with
  | arr xs =>
    have hrm : renderMarkers (.arr xs) = renderMarkers s.earthquakes := by rw [hq]
    cases hms : renderMarkers s.earthquakes with
    | error e => simp [hms, Except.map] at hb
    | ok ms =>
      by_cases hz : ((xs.length : ℚ) = 0)
      · exact ⟨none, by
          simp [renderBody, showsSpinner, fetchStart, hq, getProp, strictEqZero, Except.map, hz]⟩
      · refine ⟨some ms, ?_⟩
        rw [← hrm] at hms
        simp [renderBody, showsSpinner, fetchStart, hq, getProp, strictEqZero, Except.map, hz,
          hms]
  | undefined => simp [hq, renderMarkers, Except.map] at hb
  | null => simp [hq, renderMarkers, Except.map] at hb
  | bool v => simp [hq, renderMarkers, Except.map] at hb
  | num v => simp [hq, renderMarkers, Except.map] at hb
  | str v => simp [hq, renderMarkers, Except.map] at hb
  | obj v => simp [hq, renderMarkers, Except.map] at hb

theorem inv_init : UI.init.Inv where
  atMostOne := by simp [UI.init, Sys.init]
  beforeEffect := fun _ => ⟨rfl, rfl⟩
  loadingIff := fun h => by simp [UI.init] at h
  noError := fun _ => rfl
  mounted := by
    simp [UI.init, Sys.init, renderBody, showsSpinner, initialState, getProp, strictEqZero,
      Except.map]
  crashedIff := by
    simp [UI.init, Sys.init, renderBody, showsSpinner, initialState, getProp, strictEqZero,
      Except.map]
  crashedIdle := fun _ => rfl

theorem inv_commit (x : UI) (sys : Sys) (hc : x.crashed = false) (he : x.effectRan = true)
    (h1 : sys.inFlight ≤ 1) (h3 : sys.ui.loading = true ↔ sys.inFlight = 1)
    (h4 : sys.ui.loading = true → sys.ui.error = none)
    (h7 : (∃ e, renderBody sys.ui = .error e) → sys.inFlight = 0) : (commit x sys).Inv := by
  rcases commit_cases x sys with ⟨e, hr, hy⟩ | ⟨hr, hy⟩ | ⟨ms, hr, hy⟩
  · rw [hy]
    exact
      { atMostOne := h1
        beforeEffect := fun h => by simp [he] at h
        loadingIff := fun _ => h3
        noError := h4
        mounted := by simp [hr]
        crashedIff := by simp [hr]
        crashedIdle := fun _ => h7 ⟨e, hr⟩ }
  · rw [hy]
    exact
      { atMostOne := h1
        beforeEffect := fun h => by simp [he] at h
        loadingIff := fun _ => h3
        noError := h4
        mounted := by simp [hr]
        crashedIff := by simp [hr, hc]
        crashedIdle := fun h => by simp [hc] at h }
  · rw [hy]
    exact
      { atMostOne := h1
        beforeEffect := fun h => by simp [he] at h
        loadingIff := fun _ => h3
        noError := h4
        mounted := by simp [hr]
        crashedIff := by simp [hr, hc]
        crashedIdle := fun h => by simp [hc] at h }

theorem effectRan_of_inFlight {x : UI} (hx : x.Inv) (h : x.sys.inFlight ≠ 0) :
    x.effectRan = true := by
  cases he : x.effectRan with
  | true => rfl
  | false => exact absurd (hx.beforeEffect he).1 h

theorem idle_of_not_loading {x : UI} (hx : x.Inv) (h : x.sys.ui.loading = false) :
    x.effectRan = true ∧ x.sys.inFlight = 0 := by
  have he : x.effectRan = true := by
    cases he : x.effectRan with
    | true => rfl
    | false =>
      have := (hx.beforeEffect he).2
      rw [this] at h
      exact absurd h (by decide)
  refine ⟨he, ?_⟩
  have h1 := hx.atMostOne
  have h3 := hx.loadingIff he
  have : x.sys.inFlight ≠ 1 := fun h' => by
    rw [h3.mpr h'] at h
    exact absurd h (by decide)
  omega

theorem inv_step (x : UI) (e : UIEvent) (y : UI) (hx : x.Inv) (h : stepUI x e = some y) :
    y.Inv := by
  cases e with
  | mountEffect =>
    obtain ⟨hc, he, hy⟩ := stepUI_mountEffect h
    obtain ⟨h0, hui⟩ := hx.beforeEffect he
    rw [hy]
    apply inv_commit
    · exact hc
    · rfl
    · show x.sys.inFlight + 1 ≤ 1
      omega
    · show (fetchStart x.sys.ui).loading = true ↔ x.sys.inFlight + 1 = 1
      simp [fetchStart, h0]
    · intro _
      rfl
    · rintro ⟨err, herr⟩
      have : renderBody (fetchStart x.sys.ui) = .ok none := by
        rw [hui]
        exact renderBody_fetchStart_initial
      rw [this] at herr
      exact absurd herr (by simp)
  | refresh =>
    obtain ⟨hc, hl, hy⟩ := stepUI_refresh h
    obtain ⟨he, h0⟩ := idle_of_not_loading hx hl
    rw [hy]
    apply inv_commit
    · exact hc
    · exact he
    · show x.sys.inFlight + 1 ≤ 1
      omega
    · show (fetchStart x.sys.ui).loading = true ↔ x.sys.inFlight + 1 = 1
      simp [fetchStart, h0]
    · intro _
      rfl
    · rintro ⟨err, herr⟩
      have hok : ∃ b, renderBody x.sys.ui = .ok b := by
        cases hb : renderBody x.sys.ui with
        | ok b => exact ⟨b, rfl⟩
        | error e0 =>
          have := hx.crashedIff.mpr ⟨e0, hb⟩
          rw [hc] at this
          exact absurd this (by decide)
      obtain ⟨b, hb⟩ := hok
      obtain ⟨b', hb'⟩ := renderBody_fetchStart hl hb
      have herr' : renderBody (fetchStart x.sys.ui) = .error err := herr
      rw [hb'] at herr'
      exact absurd herr' (by simp)
  | settle r =>
    obtain ⟨hc, h0, hy⟩ := stepUI_settle h
    have he := effectRan_of_inFlight hx h0
    have h1 := hx.atMostOne
    rw [hy]
    apply inv_commit
    · exact hc
    · exact he
    · show x.sys.inFlight - 1 ≤ 1
      omega
    · show (fetchResume x.sys.ui r).loading = true ↔ x.sys.inFlight - 1 = 1
      rw [fetchResume_loading]
      constructor
      · intro hf
        exact absurd hf (by decide)
      · intro hf
        omega
    · intro hl
      have hl' : (fetchResume x.sys.ui r).loading = true := hl
      rw [fetchResume_loading] at hl'
      exact absurd hl' (by decide)
    · intro _
      show x.sys.inFlight - 1 = 0
      omega
  | click c =>
    obtain ⟨hc, p, hp, hy⟩ := stepUI_click h
    rw [hy]
    exact
      { atMostOne := hx.atMostOne
        beforeEffect := hx.beforeEffect
        loadingIff := hx.loadingIff
        noError := hx.noError
        mounted := by
          have := hx.mounted
          rw [hp] at this
          simpa using this
        crashedIff := hx.crashedIff
        crashedIdle := hx.crashedIdle }

theorem runUI_invariant (P : UI → Prop)
    (hstep : ∀ x e y, P x → stepUI x e = some y → P y) :
    ∀ (evs : List UIEvent) (x y : UI), P x → runUI x evs = some y → P y := by
  intro evs
  induction evs with
  | nil =>
    intro x y hx h
    simp only [runUI, Option.some.injEq] at h
    exact h ▸ hx
  | cons e es ih =>
    intro x y hx h
    simp only [runUI] at h
    cases hs : stepUI x e with
    | none => simp [hs] at h
    | some z =>
      rw [hs] at h
      exact ih z y (hstep x e z hx hs) h

theorem inv_of_runUI (evs : List UIEvent) (x : UI) (h : runUI UI.init evs = some x) : x.Inv :=
  runUI_invariant UI.Inv inv_step evs UI.init x inv_init h

theorem commit_sys (x : UI) (sys : Sys) : (commit x sys).sys = sys := by
  rcases commit_cases x sys with ⟨e, -, hy⟩ | ⟨-, hy⟩ | ⟨ms, -, hy⟩ <;> rw [hy]

/-- Every run of the mounted application is, on the state of
`EarthquakeVisualizer`, a run of the handler-level relation `step`. -/
theorem run_of_runUI (evs : List UIEvent) :
    ∀ x y : UI, runUI x evs = some y → ∃ evs', run x.sys evs' = some y.sys := by
  induction evs with
  | nil =>
    intro x y h
    simp only [runUI, Option.some.injEq] at h
    exact ⟨[], by rw [h]; rfl⟩
  | cons e es ih =>
    intro x y h
    simp only [runUI] at h
    cases hs : stepUI x e with
    | none => simp [hs] at h
    | some z =>
      rw [hs] at h
      obtain ⟨evs', hrun⟩ := ih z y h
      cases e with
      | mountEffect =>
        obtain ⟨-, -, hz⟩ := stepUI_mountEffect hs
        refine ⟨.start :: evs', ?_⟩
        rw [hz, commit_sys] at hrun
        simpa [run, step] using hrun
      | refresh =>
        obtain ⟨-, -, hz⟩ := stepUI_refresh hs
        refine ⟨.start :: evs', ?_⟩
        rw [hz, commit_sys] at hrun
        simpa [run, step] using hrun
      | settle r =>
        obtain ⟨-, h0, hz⟩ := stepUI_settle hs
        refine ⟨.settle r :: evs', ?_⟩
        rw [hz, commit_sys] at hrun
        simpa [run, step, h0] using hrun
      | click c =>
        obtain ⟨-, q, -, hz⟩ := stepUI_click hs
        refine ⟨evs', ?_⟩
        rw [hz] at hrun
        exact hrun

/-- C9, as stated, fails: after the mount effect one call is in flight and
`loading` is set, so the Refresh button is inert; a refresh cannot be started
while that fetch is in flight, and no state "once both have resolved" exists. -/
theorem refresh_inert_while_loading :
    runUI UI.init [.mountEffect] =
      some
        { sys :=
            { ui := { earthquakes := .arr [], loading := true, error := none },
              inFlight := 1, succeeded := 0, lastStored := none },
          effectRan := true, crashed := false, position := none } ∧
    stepUI
        { sys :=
            { ui := { earthquakes := .arr [], loading := true, error := none },
              inFlight := 1, succeeded := 0, lastStored := none },
          effectRan := true, crashed := false, position := none }
        .refresh = none ∧
    runUI UI.init
        [.mountEffect, .refresh, .settle .rejected,
         .settle (.response true (some (.obj [("features", .arr [])])))] = none ∧
    ¬ ∃ y, runUI UI.init
        [.mountEffect, .refresh, .settle .rejected,
         .settle (.response true (some (.obj [("features", .arr [])])))] = some y := by
  have h1 : runUI UI.init [.mountEffect] =
      some
        { sys :=
            { ui := { earthquakes := .arr [], loading := true, error := none },
              inFlight := 1, succeeded := 0, lastStored := none },
          effectRan := true, crashed := false, position := none } := by
    simp [runUI, stepUI, step, UI.init, Sys.init, commit, fetchStart, initialState, renderBody,
      showsSpinner, getProp, strictEqZero, Except.map]
  have h2 : stepUI
      { sys :=
          { ui := { earthquakes := .arr [], loading := true, error := none },
            inFlight := 1, succeeded := 0, lastStored := none },
        effectRan := true, crashed := false, position := none }
      .refresh = none := by
    simp [stepUI]
  have h3 : runUI UI.init
      [.mountEffect, .refresh, .settle .rejected,
       .settle (.response true (some (.obj [("features", .arr [])])))] = none := by
    have hrun : ∀ es, runUI UI.init (.mountEffect :: .refresh :: es) = none := by
      intro es
      have hstep : stepUI UI.init .mountEffect = some
          { sys :=
              { ui := { earthquakes := .arr [], loading := true, error := none },
                inFlight := 1, succeeded := 0, lastStored := none },
            effectRan := true, crashed := false, position := none } := by
        simpa [runUI] using h1
      simp only [runUI, hstep]
      rw [Option.some_bind, h2]
      rfl
    exact hrun _
  refine ⟨h1, h2, h3, ?_⟩
  rintro ⟨y, hy⟩
  rw [h3] at hy
  exact absurd hy (by simp)

/-- C9, amended: a refresh cannot be started while another fetch is in flight
(the button is inert while loading, and the mount effect runs once), so in
every reachable state at most one call is in flight, and such a call can
always resolve.  The response that resolves is therefore the last one, and the
interface reflects it: loading is cleared, the banner is present (with the
fixed text) if and only if that response failed, if it succeeded the stored
list is exactly the list it delivered, and if it failed the list is kept. -/
theorem single_call_in_flight (evs : List UIEvent) (x : UI)
    (h : runUI UI.init evs = some x) :
    x.sys.inFlight ≤ 1 ∧
    (0 < x.sys.inFlight → stepUI x .refresh = none ∧ stepUI x .mountEffect = none) ∧
    (0 < x.sys.inFlight → ∀ r, ∃ y, stepUI x (.settle r) = some y) ∧
    (∀ r y, stepUI x (.settle r) = some y →
      y.sys.inFlight = 0 ∧
      y.sys.ui.loading = false ∧
      (errorBanner y.sys.ui = some "Failed to fetch earthquake data. Please try again later." ↔
        storedBy r = none) ∧
      (errorBanner y.sys.ui = none ↔ (storedBy r).isSome) ∧
      (∀ v, storedBy r = some v → y.sys.ui.earthquakes = v) ∧
      (storedBy r = none → y.sys.ui.earthquakes = x.sys.ui.earthquakes)) := by
  have hx := inv_of_runUI evs x h
  have h1 := hx.atMostOne
  refine ⟨h1, ?_, ?_, ?_⟩
  · intro hpos
    have h0 : x.sys.inFlight ≠ 0 := by omega
    have he := effectRan_of_inFlight hx h0
    have hl : x.sys.ui.loading = true := (hx.loadingIff he).mpr (by omega)
    constructor
    · cases hc : x.crashed <;> simp [stepUI, hc, hl]
    · cases hc : x.crashed <;> simp [stepUI, hc, he]
  · intro hpos r
    have h0 : x.sys.inFlight ≠ 0 := by omega
    have hc : x.crashed = false := by
      cases hc : x.crashed with
      | false => rfl
      | true => exact absurd (hx.crashedIdle hc) h0
    refine ⟨commit x
      { ui := fetchResume x.sys.ui r
        inFlight := x.sys.inFlight - 1
        succeeded := if (storedBy r).isSome then x.sys.succeeded + 1 else x.sys.succeeded
        lastStored := if (storedBy r).isSome then storedBy r else x.sys.lastStored }, ?_⟩
    simp [stepUI, hc, step, h0]
  · intro r y hy
    obtain ⟨hc, h0, hyeq⟩ := stepUI_settle hy
    have he := effectRan_of_inFlight hx h0
    have hl : x.sys.ui.loading = true := (hx.loadingIff he).mpr (by omega)
    have herr : x.sys.ui.error = none := hx.noError hl
    have hsys : y.sys =
        { ui := fetchResume x.sys.ui r
          inFlight := x.sys.inFlight - 1
          succeeded := if (storedBy r).isSome then x.sys.succeeded + 1 else x.sys.succeeded
          lastStored := if (storedBy r).isSome then storedBy r else x.sys.lastStored } := by
      rw [hyeq, commit_sys]
    rw [hsys]
    refine ⟨by show x.sys.inFlight - 1 = 0; omega, fetchResume_loading _ _, ?_⟩
    cases hs : storedBy r with
    | none =>
      simp [fetchResume_of_not_stored _ _ hs, catchBlock, errorBanner, errorMessage]
    | some v =>
      simp [fetchResume_of_stored _ _ v hs, errorBanner, herr]

/-- C9 amended, on the run where the first call has failed and a refresh has
been pressed: the one call in flight succeeds with an empty list. -/
theorem single_call_in_flight_witness :
    runUI UI.init [.mountEffect, .settle .rejected, .refresh] =
      some
        { sys :=
            { ui := { earthquakes := .arr [], loading := true, error := none },
              inFlight := 1, succeeded := 0, lastStored := none },
          effectRan := true, crashed := false, position := none } ∧
    ∀ r y,
      stepUI
          { sys :=
              { ui := { earthquakes := .arr [], loading := true, error := none },
                inFlight := 1, succeeded := 0, lastStored := none },
            effectRan := true, crashed := false, position := none }
          (.settle r) = some y →
        y.sys.inFlight = 0 ∧
        y.sys.ui.loading = false ∧
        (errorBanner y.sys.ui = some "Failed to fetch earthquake data. Please try again later." ↔
          storedBy r = none) ∧
        (errorBanner y.sys.ui = none ↔ (storedBy r).isSome) ∧
        (∀ v, storedBy r = some v → y.sys.ui.earthquakes = v) ∧
        (storedBy r = none →
          y.sys.ui.earthquakes = (JSVal.arr [] : JSVal)) := by
  have hrun : runUI UI.init [.mountEffect, .settle .rejected, .refresh] =
      some
        { sys :=
            { ui := { earthquakes := .arr [], loading := true, error := none },
              inFlight := 1, succeeded := 0, lastStored := none },
          effectRan := true, crashed := false, position := none } := by
    simp [runUI, stepUI, step, UI.init, Sys.init, commit, fetchStart, fetchResume, catchBlock,
      storedBy, initialState, renderBody, renderMarkers, renderEach, showsSpinner, getProp,
      strictEqZero, Except.map, LocationMarker.initial]
  exact ⟨hrun, (single_call_in_flight _ _ hrun).2.2.2⟩

theorem commit_position_selected (x : UI) (sys : Sys) (p : LatLng)
    (hp : x.position = some (some p)) :
    (commit x sys).position = some (some p) ∨
    ((commit x sys).position = none ∧
      (renderBody (commit x sys).sys.ui = .ok none ∨
        ∃ err, renderBody (commit x sys).sys.ui = .error err)) := by
  rcases commit_cases x sys with ⟨e, hr, hy⟩ | ⟨hr, hy⟩ | ⟨ms, hr, hy⟩
  · rw [hy]
    exact Or.inr ⟨rfl, Or.inr ⟨e, hr⟩⟩
  · rw [hy]
    exact Or.inr ⟨rfl, Or.inl hr⟩
  · rw [hy]
    exact Or.inl (by simp [hp])

theorem commit_position_unmounted (x : UI) (sys : Sys) (hp : x.position = none) :
    (commit x sys).position = none ∨ (commit x sys).position = some LocationMarker.initial := by
  rcases commit_cases x sys with ⟨e, -, hy⟩ | ⟨-, hy⟩ | ⟨ms, -, hy⟩
  · rw [hy]
    exact Or.inl rfl
  · rw [hy]
    exact Or.inl rfl
  · rw [hy]
    exact Or.inr (by simp [hp])

theorem runUI_clicks (cs : List Click) :
    ∀ x : UI, x.crashed = false → x.position ≠ none →
      ∃ y, runUI x (cs.map .click) = some y ∧ y.sys = x.sys ∧ y.crashed = false ∧
        y.position ≠ none ∧ (∀ c, cs.getLast? = some c → y.position = some (some c.latlng)) := by
  induction cs with
  | nil =>
    intro x hc hp
    exact ⟨x, rfl, rfl, hc, hp, by simp⟩
  | cons c cs ih =>
    intro x hc hp
    obtain ⟨p, hp'⟩ := Option.ne_none_iff_exists'.mp hp
    have hstep : stepUI x (.click c) = some { x with position := some (some c.latlng) } := by
      simp [stepUI, hc, hp', LocationMarker.click]
    obtain ⟨y, hy, hsys, hyc, hyp, hlast⟩ :=
      ih { x with position := some (some c.latlng) } hc (by simp)
    refine ⟨y, ?_, hsys, hyc, hyp, ?_⟩
    · simp only [List.map_cons, runUI, hstep]
      exact hy
    · intro c' hc'
      cases cs with
      | nil =>
        simp only [List.getLast?_singleton, Option.some.injEq] at hc'
        simp only [List.map_nil, runUI, Option.some.injEq] at hy
        rw [← hy, ← hc']
      | cons d ds =>
        rw [List.getLast?_cons_cons] at hc'
        exact hlast c' hc'

/-- C6, as stated, fails: the first fetch fails, so the map is shown with an
empty list; a click selects its coordinate; Refresh is pressed and the loading
indicator replaces the map, which unmounts `LocationMarker`; once the request
has settled the map is mounted again and the picker is back in no-selection,
with no location marker, after a non-empty sequence of clicks. -/
theorem locationPicker_reset_on_remount :
    runUI UI.init [.mountEffect, .settle .rejected, .click { latlng := { lat := .fin 12, lng := .fin 77 }, mapZoom := .fin 3 }] =
      some
        { sys :=
              { ui :=
                  { earthquakes := .arr [], loading := false,
                    error := some "Failed to fetch earthquake data. Please try again later." },
                inFlight := 0, succeeded := 0, lastStored := none },
          effectRan := true, crashed := false, position := some (some { lat := .fin 12, lng := .fin 77 }) } ∧
    runUI UI.init
        [.mountEffect, .settle .rejected, .click { latlng := { lat := .fin 12, lng := .fin 77 }, mapZoom := .fin 3 },
         .refresh] =
      some
        { sys :=
              { ui := { earthquakes := .arr [], loading := true, error := none },
                inFlight := 1, succeeded := 0, lastStored := none },
          effectRan := true, crashed := false, position := none } ∧
    runUI UI.init
        [.mountEffect, .settle .rejected, .click { latlng := { lat := .fin 12, lng := .fin 77 }, mapZoom := .fin 3 },
         .refresh, .settle .rejected] =
      some
        { sys :=
              { ui :=
                  { earthquakes := .arr [], loading := false,
                    error := some "Failed to fetch earthquake data. Please try again later." },
                inFlight := 0, succeeded := 0, lastStored := none },
          effectRan := true, crashed := false, position := some none } ∧
    UI.locationMarkers
        { sys :=
              { ui :=
                  { earthquakes := .arr [], loading := false,
                    error := some "Failed to fetch earthquake data. Please try again later." },
                inFlight := 0, succeeded := 0, lastStored := none },
          effectRan := true, crashed := false, position := some none } = [] ∧
    ¬ UI.position
        { sys :=
              { ui :=
                  { earthquakes := .arr [], loading := false,
                    error := some "Failed to fetch earthquake data. Please try again later." },
                inFlight := 0, succeeded := 0, lastStored := none },
          effectRan := true, crashed := false, position := some none } = some (some { lat := .fin 12, lng := .fin 77 }) := by
  refine ⟨?_, ?_, ?_, rfl, by simp⟩
  · simp [runUI, stepUI, step, UI.init, Sys.init, commit, fetchStart, fetchResume, catchBlock,
      storedBy, initialState, errorMessage, renderBody, renderMarkers, renderEach, showsSpinner,
      getProp, strictEqZero, Except.map, LocationMarker.initial, LocationMarker.click]
  · simp [runUI, stepUI, step, UI.init, Sys.init, commit, fetchStart, fetchResume, catchBlock,
      storedBy, initialState, errorMessage, renderBody, renderMarkers, renderEach, showsSpinner,
      getProp, strictEqZero, Except.map, LocationMarker.initial, LocationMarker.click]
  · simp [runUI, stepUI, step, UI.init, Sys.init, commit, fetchStart, fetchResume, catchBlock,
      storedBy, initialState, errorMessage, renderBody, renderMarkers, renderEach, showsSpinner,
      getProp, strictEqZero, Except.map, LocationMarker.initial, LocationMarker.click]

/-- C6, amended: the picker exists exactly while the map is rendered and starts
in no-selection each time the map is mounted; every map click moves it to
selected with exactly the clicked coordinate, replacing any prior selection,
and issues `flyTo` to that coordinate at the zoom the map has at that moment;
so after any non-empty sequence of clicks the state is selected(last clicked
coordinate) with exactly one location marker, and never more than one exists;
from a selection, an event leaves a selection (the clicked coordinate for a
click, the same one otherwise) unless it unmounts the map, which happens only
when the loading indicator replaces it or rendering throws; and a picker
mounted afterwards is in no-selection again. -/
theorem locationPicker_lifecycle (evs : List UIEvent) (x : UI)
    (h : runUI UI.init evs = some x) :
    UI.init.position = none ∧
    LocationMarker.initial = none ∧
    (x.position ≠ none ↔ ∃ ms, renderBody x.sys.ui = .ok (some ms)) ∧
    x.locationMarkers.length ≤ 1 ∧
    (∀ p c, LocationMarker.click p c =
      (some c.latlng, { target := c.latlng, zoom := c.mapZoom })) ∧
    (x.position ≠ none → ∀ (cs : List Click) (c : Click),
      ∃ y, runUI x ((cs ++ [c]).map .click) = some y ∧ y.sys = x.sys ∧
        y.position = some (some c.latlng) ∧ y.locationMarkers = [c.latlng]) ∧
    (∀ p e y, x.position = some (some p) → stepUI x e = some y →
      y.position = some (some (match e with | .click c => c.latlng | _ => p)) ∨
      (y.position = none ∧
        (renderBody y.sys.ui = .ok none ∨ ∃ err, renderBody y.sys.ui = .error err))) ∧
    (∀ e y, x.position = none → stepUI x e = some y →
      y.position = none ∨ y.position = some LocationMarker.initial) := by
  have hx := inv_of_runUI evs x h
  refine ⟨rfl, rfl, hx.mounted, ?_, fun _ _ => rfl, ?_, ?_, ?_⟩
  · unfold UI.locationMarkers
    cases hp : x.position with
    | none => simp
    | some p => cases p <;> simp [LocationMarker.render]
  · intro hp cs c
    have hc : x.crashed = false := by
      cases hc : x.crashed with
      | false => rfl
      | true =>
        obtain ⟨e, he⟩ := hx.crashedIff.mp hc
        obtain ⟨ms, hms⟩ := hx.mounted.mp hp
        rw [he] at hms
        exact absurd hms (by simp)
    obtain ⟨y, hy, hsys, -, -, hlast⟩ := runUI_clicks (cs ++ [c]) x hc hp
    have hpos := hlast c (by simp)
    exact ⟨y, hy, hsys, hpos, by simp [UI.locationMarkers, hpos, LocationMarker.render]⟩
  · intro p e y hp hy
    cases e with
    | mountEffect =>
      obtain ⟨-, -, hyeq⟩ := stepUI_mountEffect hy
      rw [hyeq]
      exact commit_position_selected _ _ p hp
    | refresh =>
      obtain ⟨-, -, hyeq⟩ := stepUI_refresh hy
      rw [hyeq]
      exact commit_position_selected _ _ p hp
    | settle r =>
      obtain ⟨-, -, hyeq⟩ := stepUI_settle hy
      rw [hyeq]
      exact commit_position_selected _ _ p hp
    | click c =>
      obtain ⟨-, q, -, hyeq⟩ := stepUI_click hy
      rw [hyeq]
      exact Or.inl rfl
  · intro e y hp hy
    cases e with
    | mountEffect =>
      obtain ⟨-, -, hyeq⟩ := stepUI_mountEffect hy
      rw [hyeq]
      exact commit_position_unmounted _ _ hp
    | refresh =>
      obtain ⟨-, -, hyeq⟩ := stepUI_refresh hy
      rw [hyeq]
      exact commit_position_unmounted _ _ hp
    | settle r =>
      obtain ⟨-, -, hyeq⟩ := stepUI_settle hy
      rw [hyeq]
      exact commit_position_unmounted _ _ hp
    | click c =>
      obtain ⟨-, q, hq, -⟩ := stepUI_click hy
      rw [hp] at hq
      exact absurd hq (by simp)

/-- C6 amended, on the run where the first fetch has failed and the map is
shown: the picker is mounted, and two clicks leave the second one selected. -/
theorem locationPicker_lifecycle_witness :
    runUI UI.init [.mountEffect, .settle .rejected] =
      some
        { sys :=
              { ui :=
                  { earthquakes := .arr [], loading := false,
                    error := some "Failed to fetch earthquake data. Please try again later." },
                inFlight := 0, succeeded := 0, lastStored := none },
          effectRan := true, crashed := false, position := some none } ∧
    UI.position
        { sys :=
              { ui :=
                  { earthquakes := .arr [], loading := false,
                    error := some "Failed to fetch earthquake data. Please try again later." },
                inFlight := 0, succeeded := 0, lastStored := none },
          effectRan := true, crashed := false, position := some none } ≠ none ∧
    ∃ y,
      runUI
        { sys :=
              { ui :=
                  { earthquakes := .arr [], loading := false,
                    error := some "Failed to fetch earthquake data. Please try again later." },
                inFlight := 0, succeeded := 0, lastStored := none },
          effectRan := true, crashed := false, position := some none }
          ((([{ latlng := { lat := .fin 12, lng := .fin 77 }, mapZoom := .fin 3 }] ++
              [{ latlng := { lat := .fin 1, lng := .fin 2 }, mapZoom := .fin 5 }] :
              List Click)).map
            .click) = some y ∧
        y.position = some (some { lat := .fin 1, lng := .fin 2 }) ∧
        y.locationMarkers = [{ lat := .fin 1, lng := .fin 2 }] := by
  have hrun : runUI UI.init [.mountEffect, .settle .rejected] =
      some
        { sys :=
              { ui :=
                  { earthquakes := .arr [], loading := false,
                    error := some "Failed to fetch earthquake data. Please try again later." },
                inFlight := 0, succeeded := 0, lastStored := none },
          effectRan := true, crashed := false, position := some none } := by
    simp [runUI, stepUI, step, UI.init, Sys.init, commit, fetchStart, fetchResume, catchBlock,
      storedBy, initialState, errorMessage, renderBody, renderMarkers, renderEach, showsSpinner,
      getProp, strictEqZero, Except.map, LocationMarker.initial, LocationMarker.click]
  have hpos : UI.position
        { sys :=
              { ui :=
                  { earthquakes := .arr [], loading := false,
                    error := some "Failed to fetch earthquake data. Please try again later." },
                inFlight := 0, succeeded := 0, lastStored := none },
          effectRan := true, crashed := false, position := some none } ≠ none := by simp
  obtain ⟨y, hy, -, hp, hm⟩ :=
    (locationPicker_lifecycle _ _ hrun).2.2.2.2.2.1 hpos
      [{ latlng := { lat := .fin 12, lng := .fin 77 }, mapZoom := .fin 3 }]
      { latlng := { lat := .fin 1, lng := .fin 2 }, mapZoom := .fin 5 }
  exact ⟨hrun, hpos, y, hy, hp, hm⟩

end EarthquakeVisualizer
